import Mathlib

/-!
Verification development for the `edsource_bot` repository.

The Python sources are shallowly embedded here.  Python strings are modelled
as `List Char` (`Str`), the regex `LINK_RE = https?://\S+` (IGNORECASE) is
modelled by an explicit scanner, and every embedded function mirrors the
structure of its source function (file and line references in doc comments).
-/

set_option maxHeartbeats 1000000

abbrev Str := List Char

/-- Shorthand to write `Str` constants from Lean string literals. -/
def lit (s : String) : Str := s.toList

/-- Python `str.strip()` whitespace class (ASCII part, as used by the bot's
texts): space, tab, newline, carriage return, vertical tab, form feed. -/
def pySpace (c : Char) : Bool :=
  c = ' ' || c = '\t' || c = '\n' || c = '\r' || c = '\x0b' || c = '\x0c'

/-- Python `s.strip()`: drop leading and trailing whitespace. -/
def pyStrip (s : Str) : Str :=
  ((s.dropWhile pySpace).reverse.dropWhile pySpace).reverse

/-- Length of the maximal leading run of non-whitespace characters
(the `\S+` part of `LINK_RE`, greedy). -/
def nonspaceRun (s : Str) : Nat :=
  (s.takeWhile (fun c => !pySpace c)).length

/-- Case-insensitive prefix test used for the literal part of `LINK_RE`
(`re.IGNORECASE`; the pattern is ASCII lowercase). -/
def lowerPrefix (pat : Str) (s : Str) : Bool :=
  (s.take pat.length).map Char.toLower == pat

/-- `LINK_RE = re.compile(r"https?://\S+", re.IGNORECASE)`
(src/app/bot/splitter.py line 4 and src/app/bot/formatting.py line 4).
`matchLen s` is the length of the regex match anchored at the head of `s`,
if there is one: `http` + optional `s` + `://` + at least one non-space,
greedy. -/
def matchLen (s : Str) : Option Nat :=
  if lowerPrefix (lit "https://") s = true ∧ 0 < nonspaceRun (s.drop 8) then
    some (8 + nonspaceRun (s.drop 8))
  else if lowerPrefix (lit "http://") s = true ∧ 0 < nonspaceRun (s.drop 7) then
    some (7 + nonspaceRun (s.drop 7))
  else none

/-- Model of `LINK_RE.finditer(s)`: returns the list of
(gap-before-match, match) segment pairs plus the trailing gap after the last
match, scanning left to right and resuming after each match, exactly like
`re.finditer`.  The `skip` counter threads the "resume after the match"
position structurally:  `findSplitGo s k` behaves like scanning `s.drop k`. -/
def findSplitGo : Str → Nat → List (Str × Str) × Str
  | [], _ => ([], [])
  | _ :: rest, k + 1 => findSplitGo rest k
  | c :: rest, 0 =>
    match matchLen (c :: rest) with
    | some n =>
      let pr := findSplitGo rest (n - 1)
      (([], (c :: rest).take n) :: pr.1, pr.2)
    | none =>
      let pr := findSplitGo rest 0
      match pr.1 with
      | [] => ([], c :: pr.2)
      | (g, m) :: ps => ((c :: g, m) :: ps, pr.2)

/-- `LINK_RE.finditer(s)` as gap/match/tail decomposition. -/
def findSplit (s : Str) : List (Str × Str) × Str := findSplitGo s 0

/-- `LINK_RE.findall(s)`: the matches, in order. -/
def pyFindall (s : Str) : List Str := (findSplit s).1.map Prod.snd

/-- `LINK_RE.search(s)`: the first match, if any. -/
def pySearch (s : Str) : Option Str := (pyFindall s).head?

/-- `LINK_RE.sub("", s)`: remove every match (structural `skip` counter as in
`findSplitGo`). -/
def pySubGo : Str → Nat → Str
  | [], _ => []
  | _ :: rest, k + 1 => pySubGo rest k
  | c :: rest, 0 =>
    match matchLen (c :: rest) with
    | some n => pySubGo rest (n - 1)
    | none => c :: pySubGo rest 0

/-- `LINK_RE.sub("", s)`. -/
def pySub (s : Str) : Str := pySubGo s 0

/-- Helper of `split_sources` (src/app/bot/splitter.py lines 36-40): append
the stripped trailing text `tl` to the meta of the last `(meta, link)` pair
(`result[-1] = ((m_last + " " + tail).strip(), l_last)`). -/
def withTail (base : List (Str × Str)) (tl : Str) : List (Str × Str) :=
  match base.getLast? with
  | none => base
  | some (m, l) => base.dropLast ++ [(pyStrip (m ++ ' ' :: tl), l)]

/-- `split_sources` (src/app/bot/splitter.py lines 6-42).
Zero links: `[]`.  One link: `[(LINK_RE.sub("", text).strip(), link)]`.
Several links: one `(meta, link)` pair per link, the meta being the text
from the previous match end to the current match start
(`text[last_end:start].strip()` then `LINK_RE.sub("", ...).strip()`), and the
trailing text (stripped, sub-cleaned) appended to the last meta. -/
def split_sources (raw : Str) : List (Str × Str) :=
  let text := pyStrip raw
  let fs := findSplit text
  match fs.1 with
  | [] => []
  | [gm] => [(pyStrip (pySub text), gm.2)]
  | gm1 :: gm2 :: grest =>
    let base := (gm1 :: gm2 :: grest).map (fun gm => (pyStrip (pySub (pyStrip gm.1)), gm.2))
    let t0 := pyStrip fs.2
    if t0 = [] then base
    else withTail base (pyStrip (pySub t0))

/-! ## Formatting (src/app/bot/formatting.py) -/

/-- The closing typographic apostrophe U+2019 used by the formatter. -/
def typoApos : Char := '’'

/-- The backquote character U+0060. -/
def backquote : Char := Char.ofNat 96

/-- The verbatim-acceptance guard of `force_parenthesized`
(formatting.py line 11): `txt.startswith("(") and txt.endswith(")") and
"'" in txt`. -/
def verbatimOk (txt : Str) : Bool :=
  txt.head? == some '(' && txt.getLast? == some ')' && txt.contains '\''

/-- The three chained `str.replace` calls of `force_parenthesized`
(formatting.py lines 24-25): `’ -> '`, `` ` -> ' ``, then `' -> ’`. -/
def safeMeta (mt : Str) : Str :=
  ((mt.map (fun c => if c = typoApos then '\'' else c)).map
      (fun c => if c = backquote then '\'' else c)).map
    (fun c => if c = '\'' then typoApos else c)

/-- `force_parenthesized(link, meta, model_text)`
(src/app/bot/formatting.py lines 9-29). -/
def force_parenthesized (link : Option Str) (meta : Option Str) (model_text : Str) : Str :=
  let txt := pyStrip model_text
  if verbatimOk txt then txt
  else
    let lnk := pyStrip (link.getD [])
    let mt := pyStrip (meta.getD [])
    let lnk := if lnk = [] then (match pySearch txt with
      | some u => u
      | none => lnk) else lnk
    let mt := if mt = [] then txt else mt
    let sm := safeMeta mt
    if lnk ≠ [] then '(' :: (lnk ++ ' ' :: '\'' :: sm ++ ['\'']) ++ [')']
    else '(' :: sm ++ [')']

/-- `first_formatted_line(model_text, fallback_link, fallback_meta)`
(src/app/bot/formatting.py lines 31-33):
`force_parenthesized(...)` then `.replace("\r", " ").replace("\n", " ").strip()`. -/
def first_formatted_line (model_text : Str) (fallback_link fallback_meta : Option Str) : Str :=
  pyStrip (((force_parenthesized fallback_link fallback_meta model_text).map
      (fun c => if c = '\r' then ' ' else c)).map
    (fun c => if c = '\n' then ' ' else c))

/-- The worker's truncation step (src/app/bot/modes/format_citation.py
lines 110-111): `if len(formatted) > 4096: formatted = formatted[:4090] + "…"`. -/
def truncate4096 (s : Str) : Str :=
  if s.length > 4096 then s.take 4090 ++ ['…'] else s

/-! ## Sessions (src/app/bot/sessions.py) -/

/-- The `parts` dict of a session: `{"link": None | str, "meta": str}`. -/
structure Parts where
  link : Option Str
  meta : Str
deriving DecidableEq

/-- Python truthiness of `parts.get("link")`: `None` and `""` are falsy. -/
def truthyOpt : Option Str → Bool
  | some l => !l.isEmpty
  | none => false

/-- A session dict: `{"mode": str, "parts": {...}}`, plus the optional
`"llm"` key set by the model-choice callback (router.py line 44). -/
structure Session where
  mode : Str
  parts : Parts
  llm : Option Str
deriving DecidableEq

/-- The default session created by `ensure_session` (sessions.py line 9). -/
def defaultSession : Session := ⟨lit "menu", ⟨none, []⟩, none⟩

/-- The `SESSIONS` dict, as an association list read through `List.lookup`
(assignment conses a fresh binding, which shadows older ones). -/
abbrev Sessions := List (Int × Session)

/-- Dict assignment `SESSIONS[chat_id] = s`. -/
def setSession (ss : Sessions) (chat : Int) (s : Session) : Sessions :=
  (chat, s) :: ss

/-- `ensure_session(chat_id)` (src/app/bot/sessions.py lines 6-13): create the
default session if absent.  (The "repair missing parts" branch is vacuous in
the typed model: a `Session` always carries `parts`.) -/
def ensure_session (ss : Sessions) (chat : Int) : Session × Sessions :=
  match List.lookup chat ss with
  | some s => (s, ss)
  | none => (defaultSession, setSession ss chat defaultSession)

/-! ## Telegram service (src/app/services/telegram_service.py)

The HTTP layer is abstracted into a `TgEnv`: `editOk` says whether the
`editMessageText` call eventually succeeds (across the function's internal
retries), `sendOk` likewise for `sendMessage`.  `TgCall` records the calls a
handler makes, in order. -/

structure TgEnv where
  editOk : Bool
  sendOk : Bool
deriving DecidableEq

/-- An outbound Telegram API call made by the bot (or a worker spawn). -/
inductive TgCall
  | sendMsg (text : Str) (menu : Bool)
  | editMsg (text : Str)
  | chatAction (a : Str)
  | spawnWorker (link : Option Str) (meta : Str) (placeholder : Option Nat)
deriving DecidableEq

/-- `tg_send_message` (telegram_service.py lines 50-97): performs a
`sendMessage` call; returns the new message id on success, `None` on
failure (retries collapsed into `env.sendOk`). -/
def tg_send_message (env : TgEnv) (text : Str) (menu : Bool) : Option Nat × List TgCall :=
  (if env.sendOk then some 1 else none, [.sendMsg text menu])

/-- `tg_edit_message` (telegram_service.py lines 99-125): tries to edit
(retries collapsed into `env.editOk`); on failure it performs its own
fallback `tg_send_message(chat_id, text)` (line 124) and returns `False`. -/
def tg_edit_message (env : TgEnv) (text : Str) : Bool × List TgCall :=
  if env.editOk then (true, [.editMsg text])
  else (false, [.editMsg text] ++ (tg_send_message env text false).2)

/-- Whether a recorded call ends up visible as a message in the chat under
environment `env` (a successful edit or a successful send). -/
def visibleWithText (env : TgEnv) (t : Str) : TgCall → Bool
  | .sendMsg text _ => env.sendOk && text == t
  | .editMsg text => env.editOk && text == t
  | _ => false

/-- Number of calls in `cs` that leave the text `t` visible in the chat. -/
def countVisible (env : TgEnv) (cs : List TgCall) (t : Str) : Nat :=
  (cs.filter (visibleWithText env t)).length

/-! ## LLM gateways (src/app/services/deepseek_service.py and
src/app/services/zai_service.py)

One HTTP POST attempt is abstracted as an `LLMAttempt`:
`resp status content` is an HTTP response whose JSON extraction
(`r.json()` followed by `choices[0].message.content`) yielded `content`
(`none` = the extraction raised, i.e. malformed JSON); `timeout` is an
`asyncio.TimeoutError`; `raises` is any other exception from the POST.
The gateway functions take the list of successive attempt outcomes and
return the result string together with the number of POSTs performed. -/

inductive LLMAttempt
  | resp (status : Nat) (content : Option Str)
  | timeout
  | raises
deriving DecidableEq

/-- `r.status_code in (429, 502, 503, 504)`. -/
def transientStatus (st : Nat) : Bool :=
  st = 429 || st = 502 || st = 503 || st = 504

def slowServiceMsg : Str := lit "Сервис отвечает дольше обычного. Попробуйте ещё раз."
def overloadedMsg : Str := lit "Сервис перегружен. Попробуйте ещё раз позже."
def emptyReplyMsg : Str := lit "Извините, модель вернула пустой ответ."

/-- The retry loop of `call_deepseek` (deepseek_service.py lines 33-62),
with the attempt counter starting at 1 and `max_attempts = 5`:
  * transient status (429/502/503/504) and `attempt < 5`: sleep and retry;
  * otherwise `r.raise_for_status()` raises on any `status >= 400`, caught by
    `except Exception`: retry if `attempt < 5`, else return the fixed
    overloaded message;
  * `r.json()`/extraction failure: same `except Exception` path;
  * success: `reply.strip() or `the fixed empty-reply message;
  * `asyncio.TimeoutError`: retry if `attempt < 5`, else the fixed slow
    message.
Returns `(result, number of POSTs made)`. -/
def call_deepseek_go : Nat → List LLMAttempt → Str × Nat
  | _, [] => ([], 0)
  | attempt, a :: rest =>
    let retry : Str × Nat := (let r := call_deepseek_go (attempt + 1) rest; (r.1, r.2 + 1))
    match a with
    | .resp st content =>
      if transientStatus st = true ∧ attempt < 5 then retry
      else if 400 ≤ st then
        if attempt < 5 then retry else (overloadedMsg, 1)
      else
        match content with
        | none => if attempt < 5 then retry else (overloadedMsg, 1)
        | some c => (if pyStrip c = [] then emptyReplyMsg else pyStrip c, 1)
    | .timeout => if attempt < 5 then retry else (slowServiceMsg, 1)
    | .raises => if attempt < 5 then retry else (overloadedMsg, 1)

/-- `call_deepseek(messages)` (deepseek_service.py lines 14-62), assuming the
shared HTTP client is initialized. -/
def call_deepseek (attempts : List LLMAttempt) : Str × Nat :=
  call_deepseek_go 1 attempts

/-- The retry loop of `call_zai` (zai_service.py lines 11-54); the body is the
same retry structure as `call_deepseek` (same statuses, same
`max_attempts = 5`, same fixed strings). -/
def call_zai_go : Nat → List LLMAttempt → Str × Nat
  | _, [] => ([], 0)
  | attempt, a :: rest =>
    let retry : Str × Nat := (let r := call_zai_go (attempt + 1) rest; (r.1, r.2 + 1))
    match a with
    | .resp st content =>
      if transientStatus st = true ∧ attempt < 5 then retry
      else if 400 ≤ st then
        if attempt < 5 then retry else (overloadedMsg, 1)
      else
        match content with
        | none => if attempt < 5 then retry else (overloadedMsg, 1)
        | some c => (if pyStrip c = [] then emptyReplyMsg else pyStrip c, 1)
    | .timeout => if attempt < 5 then retry else (slowServiceMsg, 1)
    | .raises => if attempt < 5 then retry else (overloadedMsg, 1)

/-- `call_zai(messages)` (zai_service.py lines 11-54). -/
def call_zai (attempts : List LLMAttempt) : Str × Nat :=
  call_zai_go 1 attempts

/-! ## Amvera service (src/app/services/amvera_service.py) -/

/-- The result dict of `amvera_chat`: `{"ok": bool, "text": str,
"error": str | None}` (the raw payload is irrelevant here).  `amvera_chat`
catches every exception internally and never raises. -/
structure AmveraRes where
  ok : Bool
  text : Str
  error : Option Str
deriving DecidableEq

/-! ## Citation worker (src/app/bot/modes/format_citation.py) -/

/-- The behaviour of one awaited gateway coroutine: the text it would return
(the gateway functions never raise by design) or an exception, together with
the wall-clock seconds the coroutine takes to finish.  `asyncio.wait_for`
raises `asyncio.TimeoutError` when the coroutine outlives the timeout. -/
inductive GwCall
  | returns (text : Str) (seconds : Nat)
  | raises (seconds : Nat)
deriving DecidableEq

/-- Wall-clock duration of a gateway coroutine. -/
def GwCall.seconds : GwCall → Nat
  | .returns _ s => s
  | .raises s => s

/-- The default of `MODEL_WATCHDOG_SECONDS = int(os.environ.get(
"MODEL_WATCHDOG_SECONDS", "25"))` (src/app/config/settings.py line 23). -/
def MODEL_WATCHDOG_SECONDS_default : Nat := 25

/-- Provider resolution of the worker (format_citation.py line 81):
`(sess.get("llm") or MODEL_PROVIDER or "amvera").lower()`. -/
def resolveProvider (sessLlm : Option Str) (modelProvider : Str) : Str :=
  (match sessLlm with
    | some l => if l ≠ [] then l
        else if modelProvider ≠ [] then modelProvider else lit "amvera"
    | none => if modelProvider ≠ [] then modelProvider else lit "amvera").map Char.toLower

def timeoutOutMsg : Str := slowServiceMsg
def workerFailMsg : Str := lit "Не удалось оформить источник. Попробуйте ещё раз."

/-- The `try`/`except` body of `_format_worker` (format_citation.py
lines 93-116) computing the outgoing text `out`:

  * provider `"amvera"`: `amvera_chat` is awaited **without** any
    `asyncio.wait_for` wrapper, so `amvSeconds` (its wall-clock duration) is
    never compared against the watchdog; on `ok` the text, otherwise
    `"Ошибка Amvera: " + (error or "нет ответа")`, is passed through
    `first_formatted_line` and the 4096-truncation;
  * provider `"deepseek-chat"`: `asyncio.wait_for(call_deepseek(...),
    timeout=MODEL_WATCHDOG_SECONDS)`;
  * any other provider: `asyncio.wait_for(call_zai(...), ...)`.

`asyncio.TimeoutError` yields the fixed slow-service message, any other
exception the fixed failure message. -/
def workerOut (provider : Str) (amv : AmveraRes) (amvSeconds : Nat)
    (dsCall zaiCall : GwCall) (watchdog : Nat)
    (link : Option Str) (meta : Str) : Str :=
  if provider = lit "amvera" then
    let _ := amvSeconds
    let raw := if amv.ok then amv.text
      else lit "Ошибка Amvera: " ++
        (match amv.error with
          | some e => if e ≠ [] then e else lit "нет ответа"
          | none => lit "нет ответа")
    truncate4096 (first_formatted_line raw link (some meta))
  else
    let call := if provider = lit "deepseek-chat" then dsCall else zaiCall
    if call.seconds > watchdog then timeoutOutMsg
    else
      match call with
      | .returns t _ => truncate4096 (first_formatted_line t link (some meta))
      | .raises _ => workerFailMsg

/-- Result of a `_format_worker` run: the Telegram calls it makes and the
session it stores (format_citation.py line 125 replaces the whole session
dict, so the `llm` key is dropped). -/
structure WorkerResult where
  calls : List TgCall
  sessionAfter : Session
deriving DecidableEq

/-- `_format_worker(chat_id, parts, placeholder_id)` (format_citation.py
lines 79-126): compute `out`, then edit the placeholder in place — falling
back to a fresh send when the edit reports failure — or send directly when
there is no placeholder; finally store
`{"mode": "format_citation", "parts": {"link": None, "meta": ""}}`. -/
def format_worker (env : TgEnv) (provider : Str) (amv : AmveraRes)
    (amvSeconds : Nat) (dsCall zaiCall : GwCall) (watchdog : Nat)
    (parts : Parts) (placeholder : Option Nat) : WorkerResult :=
  let out := workerOut provider amv amvSeconds dsCall zaiCall watchdog parts.link parts.meta
  let calls := match placeholder with
    | some _ =>
      let e := tg_edit_message env out
      if e.1 then e.2 else e.2 ++ (tg_send_message env out true).2
    | none => (tg_send_message env out true).2
  ⟨calls, ⟨lit "format_citation", ⟨none, []⟩, none⟩⟩

/-! ## Message accumulation handler (format_citation.py lines 26-77) -/

def promptLinkMsg : Str :=
  lit "Пришлите гиперссылку на источник (начинается с http/https)."
def promptMetaMsg : Str :=
  lit "Пришлите данные об источнике (название, журнал/место публикации, год, том/номер, страницы, DOI)."
def formattingMsg : Str := lit "Оформляю…"
def batchDoneMsg : Str := lit "Готово ✅"

/-- `f"Нашёл {len(pairs)} источника(ов). Обрабатываю по очереди…"`. -/
def batchFoundMsg (n : Nat) : Str :=
  lit "Нашёл " ++ lit (toString n) ++ lit " источника(ов). Обрабатываю по очереди…"

/-- `f"Обрабатываю {idx}/{len(pairs)}…"`. -/
def batchStatusMsg (i n : Nat) : Str :=
  lit "Обрабатываю " ++ lit (toString i) ++ lit "/" ++ lit (toString n) ++ lit "…"

/-- The accumulation step of `handle_message` (format_citation.py
lines 52-66): merge the message's URLs and remaining text into the session
`parts`. -/
def accumulateParts (parts : Parts) (txt : Str) : Parts :=
  match pyFindall txt with
  | u :: _ =>
    let pl := if truthyOpt parts.link then parts else { parts with link := some u }
    let metaCandidate := pyStrip (pySub txt)
    if metaCandidate ≠ [] then
      if pl.meta ≠ [] then { pl with meta := pyStrip (pl.meta ++ ' ' :: metaCandidate) }
      else { pl with meta := metaCandidate }
    else pl
  | [] =>
    if parts.meta ≠ [] then { parts with meta := pyStrip (parts.meta ++ ' ' :: txt) }
    else { parts with meta := txt }

/-- `handle_message(chat_id, text)` (format_citation.py lines 26-77), as the
new session `parts` plus the ordered outbound/worker calls.

Multi-source branch (`len(pairs) > 1`, lines 32-50): typing action, a batch
placeholder message, then for each `(meta, link)` pair a status edit (when
the placeholder send succeeded) and a sequential `_format_worker` invocation
with `placeholder_id=None`; the session `parts` are not touched by the
handler itself.

Single-source branch (lines 52-77): merge the URLs/remaining text of the
message into `parts`, and either spawn the worker (when both `link` and
`meta` are truthy) after the typing action and the "Оформляю…" placeholder,
or prompt for the missing part. -/
def handle_message (env : TgEnv) (parts : Parts) (text : Str) : Parts × List TgCall :=
  let txt := pyStrip text
  let pairs := split_sources txt
  if 1 < pairs.length then
    let (pid, sendCalls) := tg_send_message env (batchFoundMsg pairs.length) true
    let perPair := (pairs.enumFrom 1).flatMap (fun pml =>
      (match pid with
        | some _ => [TgCall.editMsg (batchStatusMsg pml.1 pairs.length)]
        | none => []) ++
      [TgCall.spawnWorker (some pml.2.2) pml.2.1 none])
    let finish := match pid with
      | some _ => [TgCall.editMsg batchDoneMsg]
      | none => []
    (parts, TgCall.chatAction (lit "typing") :: sendCalls ++ perPair ++ finish)
  else
    let parts1 := accumulateParts parts txt
    if truthyOpt parts1.link ∧ parts1.meta ≠ [] then
      let (pid, sendCalls) := tg_send_message env formattingMsg true
      (parts1, TgCall.chatAction (lit "typing") :: sendCalls ++
        [TgCall.spawnWorker parts1.link parts1.meta pid])
    else if ¬ truthyOpt parts1.link then
      (parts1, [TgCall.sendMsg promptLinkMsg true])
    else
      (parts1, [TgCall.sendMsg promptMetaMsg true])

/-! ## Rate limiter (src/app/bot/rate_limit.py) -/

/-- The `LAST_USED_AT` dict, read through `List.lookup`. -/
abbrev Ledger := List (Int × ℚ)

/-- `allow(chat_id)` (rate_limit.py lines 7-16): `now` is the event-loop
clock at the call; returns whether processing may proceed, together with the
(possibly updated) ledger.  The ledger is written only on success. -/
def allow (led : Ledger) (chat : Int) (now cooldown : ℚ) : Bool × Ledger :=
  let last := (List.lookup chat led).getD 0
  if now - last < cooldown then (false, led)
  else (true, (chat, now) :: led)

/-! ## Router (src/app/bot/router.py), commands (src/app/bot/commands.py)
and callbacks (src/app/bot/callbacks.py)

The keyboard dicts and the `WELCOME` text live in `app/bot/ui.py`, which is
not part of the sources; only their identity matters here. -/

/-- Modelled from the spec: `app/bot/ui.py` is not in the sources; `WELCOME`
is the greeting text sent by `cmd_start`. -/
def WELCOME : Str := lit "WELCOME"

def menuShownMsg : Str := lit "Меню:"
def clearedMsg : Str := lit "Контекст очищен. Продолжайте."
def restartedMsg : Str := lit "Сессия перезапущена. Нажмите «📚 Оформить источник внутри текста»."
def fixMsg : Str := lit "Если долго нет ответа, просто повторите запрос.\nМы запускаем обработку в фоне, чтобы Telegram всегда получал 200."
def chooseModelMsg : Str := lit "Выбери модель:"
def enterModeMsg : Str := lit "Режим оформления включён. Пришлите источник (название/журнал/год/том/стр/DOI) и гиперссылку. Можно по очереди."
def modelHelpMsg : Str := lit "• ⚡ LLaMA 3.1 8B (Amvera) — быстрее, хватает для форматирования.\n• DeepSeek — быстрый, но результат может плавать.\n• ZAI — как запасной провайдер.\n\nВыбери модель:"

/-- The confirmation text for a model choice (router.py lines 47-51). -/
def confirmFor (choice : Str) : Str :=
  if choice = lit "amvera" then lit "✅ Выбрана LLaMA 3.1 8B (Amvera)."
  else if choice = lit "deepseek" then lit "✅ Выбран DeepSeek."
  else if choice = lit "zai" then lit "✅ Выбран ZAI."
  else lit "✅ Модель: " ++ choice

/-- A `callback_query` payload: the originating message (chat id and message
id), if any, and the raw callback `data` string. -/
structure Cb where
  message : Option (Int × Nat)
  data : Option Str
deriving DecidableEq

/-- An inbound message: chat id and optional text. -/
structure Msg where
  chat : Int
  text : Option Str
deriving DecidableEq

/-- An inbound Telegram update. -/
structure Upd where
  callback_query : Option Cb
  message : Option Msg
  edited_message : Option Msg
deriving DecidableEq

/-- The bot's global mutable state: `SESSIONS` and `LAST_USED_AT`. -/
structure BotState where
  sessions : Sessions
  ledger : Ledger
deriving DecidableEq

/-- `enter_mode(chat_id)` (format_citation.py lines 17-23): replace the whole
session (dropping any `llm` key) and announce the mode. -/
def enter_mode (st : BotState) (chat : Int) : BotState × List TgCall :=
  ({ st with sessions := setSession st.sessions chat ⟨lit "format_citation", ⟨none, []⟩, none⟩ },
   [.sendMsg enterModeMsg true])

/-- The callback branch of `route_update` (router.py lines 19-59) together
with `handle_callback` (callbacks.py lines 5-9).  Note that after a model
choice the router stores `sess["llm"] = choice` but then `enter_mode`
replaces the whole session dict, dropping the `llm` key again. -/
def routeCallback (st : BotState) (cb : Cb) : BotState × List TgCall :=
  match cb.message with
  | none => (st, [])
  | some (chat, _mid) =>
    let data := pyStrip (cb.data.getD [])
    if (lit "model:") <+: data then
      let choice := data.drop 6
      let (sess, ss1) := ensure_session st.sessions chat
      if choice = lit "help" then
        ({ st with sessions := ss1 },
         [.editMsg modelHelpMsg, .sendMsg chooseModelMsg true])
      else
        let ss2 := setSession ss1 chat { sess with llm := some choice }
        let (st', entryCalls) := enter_mode { st with sessions := ss2 } chat
        (st', .editMsg (confirmFor choice) :: entryCalls)
    else if data = lit "menu" then
      ({ st with sessions := setSession st.sessions chat ⟨lit "menu", ⟨none, []⟩, none⟩ },
       [.sendMsg menuShownMsg true])
    else (st, [])

/-- The text-message branch of `route_update` (router.py lines 61-101):
rate-limit gate first, then the literal command strings in their source
order, then mode dispatch, then the default menu. -/
def routeMessage (now cooldown : ℚ) (env : TgEnv) (st : BotState)
    (chat : Int) (rawText : Option Str) : BotState × List TgCall :=
  let text := pyStrip (rawText.getD [])
  let (ok, led') := allow st.ledger chat now cooldown
  if ¬ ok then (st, [])
  else
    let st1 : BotState := { st with ledger := led' }
    if text = lit "🏠 Меню" ∨ text = lit "/start" ∨ text = lit "start" ∨ text = lit "/menu" then
      ({ st1 with sessions := setSession st1.sessions chat ⟨lit "menu", ⟨none, []⟩, none⟩ },
       [.sendMsg WELCOME true])
    else if text = lit "🔄 Очистить контекст" then
      let mode := ((List.lookup chat st1.sessions).map Session.mode).getD (lit "menu")
      ({ st1 with sessions := setSession st1.sessions chat ⟨mode, ⟨none, []⟩, none⟩ },
       [.sendMsg clearedMsg true])
    else if text = lit "♻️ Перезапуск" then
      ({ st1 with sessions := setSession st1.sessions chat ⟨lit "menu", ⟨none, []⟩, none⟩ },
       [.sendMsg restartedMsg true])
    else if text = lit "🛠 Починить сбои" then
      (st1, [.sendMsg fixMsg true])
    else if text = lit "/model" ∨ text = lit "Сменить модель" ∨ text = lit "Выбрать модель" then
      (st1, [.sendMsg chooseModelMsg true])
    else if text = lit "📚 Оформить источник внутри текста" then
      enter_mode st1 chat
    else
      let (sess, ss1) := ensure_session st1.sessions chat
      let st2 : BotState := { st1 with sessions := ss1 }
      if sess.mode = lit "format_citation" then
        let (parts', calls) := handle_message env sess.parts text
        ({ st2 with sessions := setSession st2.sessions chat { sess with parts := parts' } },
         calls)
      else
        ({ st2 with sessions := setSession st2.sessions chat ⟨lit "menu", ⟨none, []⟩, none⟩ },
         [.sendMsg WELCOME true])

/-- `route_update(update)` (router.py lines 11-101): callback queries are
handled first and never reach the rate limiter; otherwise
`update.get("message") or update.get("edited_message")` is routed through
the gate. -/
def route_update (now cooldown : ℚ) (env : TgEnv) (st : BotState) (u : Upd) :
    BotState × List TgCall :=
  match u.callback_query with
  | some cb => routeCallback st cb
  | none =>
    match u.message with
    | some m => routeMessage now cooldown env st m.chat m.text
    | none =>
      match u.edited_message with
      | some m => routeMessage now cooldown env st m.chat m.text
      | none => (st, [])

/-! ## Verification-side definitions -/

/-- Reassemble a gap/match decomposition: `glueSeg ps t` is
`g₁ ++ m₁ ++ ... ++ gₙ ++ mₙ ++ t`. -/
def glueSeg (ps : List (Str × Str)) (t : Str) : Str :=
  ps.foldr (fun gm acc => gm.1 ++ gm.2 ++ acc) t

/-- No suffix of `s` starts with a `LINK_RE` match. -/
def NoMatchIn (s : Str) : Prop := ∀ i, matchLen (s.drop i) = none

/-- The single mapping the three chained replaces of the formatter amount
to: each apostrophe-like character (`'`, backquote, `’`) becomes the
typographic `’`. -/
def mapApos (c : Char) : Char :=
  if c = '\'' ∨ c = backquote ∨ c = typoApos then typoApos else c

/-- Split a string at the first occurrence of the two-character delimiter
`space + single quote`, returning the part before and the part after. -/
def splitOnDelim : Str → Option (Str × Str)
  | [] => none
  | [_] => none
  | a :: b :: rest =>
    if a = ' ' ∧ b = '\'' then some ([], rest)
    else match splitOnDelim (b :: rest) with
      | some (u, v) => some (a :: u, v)
      | none => none

/-- Parse a string of the shape `(<token> '<body>')` (token nonempty and
whitespace-free, delimiters the wrapping parentheses and single quotes)
back into `(token, body)`. -/
def parseShape (s : Str) : Option (Str × Str) :=
  if s.head? = some '(' ∧ s.reverse.take 2 = [')', '\''] then
    match splitOnDelim ((s.drop 1).dropLast.dropLast) with
    | some (tok, body) =>
      if tok ≠ [] ∧ tok.all (fun c => !pySpace c) then some (tok, body) else none
    | none => none
  else none

/-- The well-formedness pattern of the spec, following its words: the output
matches `(<token without whitespace> '<arbitrary text>')` or
`(<arbitrary text>)`. -/
def wellFormedShape (s : Str) : Prop :=
  (∃ tok body, tok ≠ [] ∧ (∀ c ∈ tok, pySpace c = false) ∧
    s = '(' :: (tok ++ ' ' :: '\'' :: body ++ ['\'']) ++ [')'])
  ∨ (∃ body, s = '(' :: body ++ [')'])

/-- The `(meta, link)` pair list that the multi-URL claim describes, built
directly from the finditer decomposition `(gms, tl)` of the stripped input:
pair i's meta is the (stripped) gap before URL i, and the (stripped)
trailing text is appended to the last pair's meta. -/
def claimPairs (gms : List (Str × Str)) (tl : Str) : List (Str × Str) :=
  let base := gms.map (fun gm => (pyStrip gm.1, gm.2))
  let t0 := pyStrip tl
  if t0 = [] then base else withTail base t0

/-- An attempt outcome that is a non-transient failure in the sense of the
claim: an HTTP response with a 4xx/5xx status outside {429, 502, 503, 504},
or a response whose JSON extraction failed (malformed JSON). -/
def isNonTransientFailure : LLMAttempt → Bool
  | .resp st content =>
    !transientStatus st && (decide (400 ≤ st) || content == none)
  | _ => false

/-! ## Basic lemmas on the python-string primitives -/

theorem dropWhile_dropWhile_self (p : Char → Bool) (l : Str) :
    (l.dropWhile p).dropWhile p = l.dropWhile p := by
  induction l with
  | nil => rfl
  | cons c t ih =>
    by_cases h : p c
    · simp [List.dropWhile_cons, h, ih]
    · simp [List.dropWhile_cons, h]

theorem dropWhile_eq_self_of_head (p : Char → Bool) (l : Str)
    (h : ∀ c, l.head? = some c → p c = false) : l.dropWhile p = l := by
  cases l with
  | nil => rfl
  | cons c t =>
    have hc := h c rfl
    simp [List.dropWhile_cons, hc]

theorem head_dropWhile_false (p : Char → Bool) (l : Str) :
    ∀ c, (l.dropWhile p).head? = some c → p c = false := by
  induction l with
  | nil => intro c h; simp at h
  | cons a t ih =>
    intro c h
    by_cases ha : p a
    · exact ih c (by simpa [List.dropWhile_cons, ha] using h)
    · simp [List.dropWhile_cons, ha] at h
      simpa [← h] using ha

theorem pyStrip_decomp (s : Str) : ∃ u v, s = u ++ pyStrip s ++ v := by
  refine ⟨s.takeWhile pySpace,
    (((s.dropWhile pySpace).reverse).takeWhile pySpace).reverse, ?_⟩
  have h1 : s = s.takeWhile pySpace ++ s.dropWhile pySpace :=
    (List.takeWhile_append_dropWhile (p := pySpace) (l := s)).symm
  have h2 : s.dropWhile pySpace =
      pyStrip s ++ ((s.dropWhile pySpace).reverse.takeWhile pySpace).reverse := by
    calc s.dropWhile pySpace
        = ((s.dropWhile pySpace).reverse).reverse := (List.reverse_reverse _).symm
      _ = ((s.dropWhile pySpace).reverse.takeWhile pySpace ++
            (s.dropWhile pySpace).reverse.dropWhile pySpace).reverse := by
            rw [List.takeWhile_append_dropWhile]
      _ = ((s.dropWhile pySpace).reverse.dropWhile pySpace).reverse ++
            ((s.dropWhile pySpace).reverse.takeWhile pySpace).reverse := by
            rw [List.reverse_append]
      _ = pyStrip s ++ ((s.dropWhile pySpace).reverse.takeWhile pySpace).reverse := rfl
  calc s = s.takeWhile pySpace ++ s.dropWhile pySpace := h1
    _ = s.takeWhile pySpace ++ (pyStrip s ++
          ((s.dropWhile pySpace).reverse.takeWhile pySpace).reverse) := by rw [← h2]
    _ = s.takeWhile pySpace ++ pyStrip s ++
          ((s.dropWhile pySpace).reverse.takeWhile pySpace).reverse := by
          rw [List.append_assoc]

theorem pyStrip_head_false (s : Str) :
    ∀ c, (pyStrip s).head? = some c → pySpace c = false := by
  intro c h
  unfold pyStrip at h
  set d := s.dropWhile pySpace with hd
  rcases hr : d.reverse.dropWhile pySpace with _ | ⟨a, w⟩
  · rw [hr] at h; simp at h
  · -- pyStrip s = (a :: w).reverse, a prefix of d (via the decomposition),
    -- so its head is the head of d, which fails pySpace.
    have hds : d = (a :: w).reverse ++ (d.reverse.takeWhile pySpace).reverse := by
      conv_lhs => rw [← List.reverse_reverse d,
        ← List.takeWhile_append_dropWhile (p := pySpace) (l := d.reverse)]
      rw [List.reverse_append, hr]
    rw [hr] at h
    have hne : (a :: w).reverse ≠ [] := by simp
    have hhead : d.head? = ((a :: w).reverse).head? := by
      rw [hds, List.head?_append_of_ne_nil _ hne]
    rw [← hhead] at h
    exact head_dropWhile_false pySpace s c (by rw [← hd]; exact h)

theorem pyStrip_getLast_false (s : Str) :
    ∀ c, (pyStrip s).getLast? = some c → pySpace c = false := by
  intro c h
  unfold pyStrip at h
  rw [List.getLast?_reverse] at h
  exact head_dropWhile_false pySpace _ c h

theorem pyStrip_eq_self (s : Str)
    (h1 : ∀ c, s.head? = some c → pySpace c = false)
    (h2 : ∀ c, s.getLast? = some c → pySpace c = false) : pyStrip s = s := by
  unfold pyStrip
  rw [dropWhile_eq_self_of_head pySpace s h1]
  rw [dropWhile_eq_self_of_head pySpace s.reverse
    (by intro c hc; exact h2 c (by rwa [List.head?_reverse] at hc))]
  exact List.reverse_reverse s

theorem pyStrip_idem (s : Str) : pyStrip (pyStrip s) = pyStrip s :=
  pyStrip_eq_self _ (pyStrip_head_false s) (pyStrip_getLast_false s)

theorem pyStrip_sandwich (c₁ c₂ : Char) (x : Str)
    (h1 : pySpace c₁ = false) (h2 : pySpace c₂ = false) :
    pyStrip (c₁ :: x ++ [c₂]) = c₁ :: x ++ [c₂] := by
  apply pyStrip_eq_self
  · intro c h; simp at h; simpa [← h] using h1
  · intro c h
    rw [List.getLast?_concat] at h
    · simp at h; simpa [← h] using h2

/-! ## Lemmas on the `LINK_RE` scanner -/

theorem matchLen_nil : matchLen [] = none := by decide

theorem matchLen_pos {s : Str} {n : Nat} (h : matchLen s = some n) : 0 < n := by
  unfold matchLen at h
  split at h
  · cases h; omega
  · split at h
    · cases h; omega
    · cases h

theorem nonspaceRun_head {u : Str} (h : 0 < nonspaceRun u) :
    ∃ c t, u = c :: t ∧ pySpace c = false := by
  cases u with
  | nil => simp [nonspaceRun] at h
  | cons c t =>
    by_cases hc : pySpace c
    · simp [nonspaceRun, List.takeWhile_cons, hc] at h
    · exact ⟨c, t, rfl, by simpa using hc⟩

theorem nonspaceRun_append_pos {u : Str} (t : Str) (h : 0 < nonspaceRun u) :
    0 < nonspaceRun (u ++ t) := by
  obtain ⟨c, w, rfl, hc⟩ := nonspaceRun_head h
  simp [nonspaceRun, List.takeWhile_cons, hc]

theorem length_lt_of_run_drop {s : Str} {k : Nat} (h : 0 < nonspaceRun (s.drop k)) :
    k < s.length := by
  by_contra hk
  push_neg at hk
  rw [List.drop_of_length_le hk] at h
  simp [nonspaceRun] at h

theorem lowerPrefix_append {pat s : Str} (t : Str)
    (h : lowerPrefix pat s = true) (hlen : pat.length ≤ s.length) :
    lowerPrefix pat (s ++ t) = true := by
  unfold lowerPrefix at h ⊢
  rwa [List.take_append_eq_append_take, Nat.sub_eq_zero_of_le hlen,
    List.take_zero, List.append_nil]

theorem matchLen_isSome_append {s : Str} (t : Str) (h : (matchLen s).isSome) :
    (matchLen (s ++ t)).isSome := by
  unfold matchLen at h
  by_cases h1 : lowerPrefix (lit "https://") s = true ∧ 0 < nonspaceRun (s.drop 8)
  · have hlen : 8 < s.length := length_lt_of_run_drop h1.2
    have hp : lowerPrefix (lit "https://") (s ++ t) = true :=
      lowerPrefix_append t h1.1 (by simp [lit]; omega)
    have hr : 0 < nonspaceRun ((s ++ t).drop 8) := by
      rw [List.drop_append_eq_append_drop, Nat.sub_eq_zero_of_le (by omega),
        List.drop_zero]
      exact nonspaceRun_append_pos t h1.2
    unfold matchLen
    rw [if_pos ⟨hp, hr⟩]
    rfl
  · rw [if_neg h1] at h
    by_cases h2 : lowerPrefix (lit "http://") s = true ∧ 0 < nonspaceRun (s.drop 7)
    · have hlen : 7 < s.length := length_lt_of_run_drop h2.2
      have hp : lowerPrefix (lit "http://") (s ++ t) = true :=
        lowerPrefix_append t h2.1 (by simp [lit]; omega)
      have hr : 0 < nonspaceRun ((s ++ t).drop 7) := by
        rw [List.drop_append_eq_append_drop, Nat.sub_eq_zero_of_le (by omega),
          List.drop_zero]
        exact nonspaceRun_append_pos t h2.2
      unfold matchLen
      by_cases h1' : lowerPrefix (lit "https://") (s ++ t) = true ∧
          0 < nonspaceRun ((s ++ t).drop 8)
      · rw [if_pos h1']; rfl
      · rw [if_neg h1', if_pos ⟨hp, hr⟩]; rfl
    · rw [if_neg h2] at h
      simp at h

theorem NoMatchIn_nil : NoMatchIn [] := by
  intro i
  rw [List.drop_nil]
  exact matchLen_nil

theorem NoMatchIn_decomp {u w v : Str} (h : NoMatchIn (u ++ (w ++ v))) :
    NoMatchIn w := by
  intro i
  by_cases hi : w.length ≤ i
  · rw [List.drop_of_length_le hi]; exact matchLen_nil
  · push_neg at hi
    by_contra hne
    have hs : (matchLen (w.drop i)).isSome := by
      cases hm : matchLen (w.drop i) with
      | none => exact absurd hm hne
      | some n => rfl
    have hsome : (matchLen (w.drop i ++ v)).isSome := matchLen_isSome_append v hs
    have hdrop : (u ++ (w ++ v)).drop (u.length + i) = w.drop i ++ v := by
      rw [List.drop_append_eq_append_drop,
        List.drop_of_length_le (l := u) (by omega), List.nil_append,
        show u.length + i - u.length = i by omega,
        List.drop_append_eq_append_drop,
        Nat.sub_eq_zero_of_le (by omega), List.drop_zero]
    have := h (u.length + i)
    rw [hdrop] at this
    rw [this] at hsome
    simp at hsome

/-! ## Lemmas on `findSplit` and `pySub` -/

theorem findSplitGo_skip : ∀ (k : Nat) (s : Str), findSplitGo s k = findSplitGo (s.drop k) 0 := by
  intro k
  induction k with
  | zero => intro s; rw [List.drop_zero]
  | succ k ih =>
    intro s
    cases s with
    | nil => simp [findSplitGo]
    | cons c rest =>
      rw [List.drop_succ_cons, ← ih rest]
      rfl

theorem pySubGo_skip : ∀ (k : Nat) (s : Str), pySubGo s k = pySubGo (s.drop k) 0 := by
  intro k
  induction k with
  | zero => intro s; rw [List.drop_zero]
  | succ k ih =>
    intro s
    cases s with
    | nil => simp [pySubGo]
    | cons c rest =>
      rw [List.drop_succ_cons, ← ih rest]
      rfl

theorem findSplit_cons_match {c : Char} {rest : Str} {k : Nat}
    (hm : matchLen (c :: rest) = some k) :
    findSplit (c :: rest) =
      (([], (c :: rest).take k) :: (findSplit (rest.drop (k - 1))).1,
       (findSplit (rest.drop (k - 1))).2) := by
  have h1 : findSplitGo (c :: rest) 0 =
      (([], (c :: rest).take k) :: (findSplitGo rest (k - 1)).1,
       (findSplitGo rest (k - 1)).2) := by
    rw [show findSplitGo (c :: rest) 0 =
        (match matchLen (c :: rest) with
          | some n =>
            (([], (c :: rest).take n) :: (findSplitGo rest (n - 1)).1,
              (findSplitGo rest (n - 1)).2)
          | none =>
            (match (findSplitGo rest 0).1 with
              | [] => ([], c :: (findSplitGo rest 0).2)
              | (g, m) :: ps => ((c :: g, m) :: ps, (findSplitGo rest 0).2)) :
          List (Str × Str) × Str)
        from rfl, hm]
  show findSplitGo (c :: rest) 0 = _
  rw [h1, findSplitGo_skip (k - 1) rest]
  rfl

theorem findSplit_cons_nomatch {c : Char} {rest : Str}
    (hm : matchLen (c :: rest) = none) :
    findSplit (c :: rest) =
      (match (findSplit rest).1 with
        | [] => ([], c :: (findSplit rest).2)
        | (g, m) :: ps => ((c :: g, m) :: ps, (findSplit rest).2)) := by
  show findSplitGo (c :: rest) 0 = _
  rw [show findSplitGo (c :: rest) 0 =
      (match matchLen (c :: rest) with
        | some n =>
          (([], (c :: rest).take n) :: (findSplitGo rest (n - 1)).1,
            (findSplitGo rest (n - 1)).2)
        | none =>
          (match (findSplitGo rest 0).1 with
            | [] => ([], c :: (findSplitGo rest 0).2)
            | (g, m) :: ps => ((c :: g, m) :: ps, (findSplitGo rest 0).2)) :
        List (Str × Str) × Str)
      from rfl, hm]
  rfl

theorem findSplit_glue : ∀ s : Str, glueSeg (findSplit s).1 (findSplit s).2 = s := by
  intro s
  generalize hn : s.length = n
  induction n using Nat.strong_induction_on generalizing s with
  | _ n ih =>
    cases s with
    | nil => rfl
    | cons c rest =>
      cases hm : matchLen (c :: rest) with
      | some k =>
        have hk : 0 < k := matchLen_pos hm
        rw [findSplit_cons_match hm]
        have hlen : (rest.drop (k - 1)).length < n := by
          have := List.length_drop (k - 1) rest
          simp at hn
          omega
        have hrec := ih _ hlen (rest.drop (k - 1)) rfl
        show [] ++ (c :: rest).take k ++
          glueSeg (findSplit (rest.drop (k - 1))).1 (findSplit (rest.drop (k - 1))).2 = c :: rest
        rw [List.nil_append, hrec]
        have : rest.drop (k - 1) = (c :: rest).drop k := by
          obtain ⟨j, rfl⟩ : ∃ j, k = j + 1 := ⟨k - 1, by omega⟩
          simp
        rw [this, List.take_append_drop]
      | none =>
        have hlen : rest.length < n := by simp at hn; omega
        have hrec := ih _ hlen rest rfl
        rw [findSplit_cons_nomatch hm]
        cases hps : (findSplit rest).1 with
        | nil =>
          show glueSeg [] (c :: (findSplit rest).2) = c :: rest
          rw [hps] at hrec
          show c :: (findSplit rest).2 = c :: rest
          rw [show glueSeg [] (findSplit rest).2 = (findSplit rest).2 from rfl] at hrec
          rw [hrec]
        | cons gm ps =>
          obtain ⟨g, m⟩ := gm
          show glueSeg ((c :: g, m) :: ps) (findSplit rest).2 = c :: rest
          rw [hps] at hrec
          show (c :: g) ++ m ++ glueSeg ps (findSplit rest).2 = c :: rest
          have : (c :: g) ++ m ++ glueSeg ps (findSplit rest).2 =
              c :: (g ++ m ++ glueSeg ps (findSplit rest).2) := by simp
          rw [this]
          rw [show glueSeg ((g, m) :: ps) (findSplit rest).2 =
            g ++ m ++ glueSeg ps (findSplit rest).2 from rfl] at hrec
          rw [hrec]

theorem findSplit_nomatch : ∀ s : Str,
    (∀ gm ∈ (findSplit s).1, NoMatchIn gm.1) ∧ NoMatchIn (findSplit s).2 := by
  intro s
  generalize hn : s.length = n
  induction n using Nat.strong_induction_on generalizing s with
  | _ n ih =>
    cases s with
    | nil => exact ⟨by intro gm h; simp [findSplit, findSplitGo] at h, NoMatchIn_nil⟩
    | cons c rest =>
      cases hm : matchLen (c :: rest) with
      | some k =>
        rw [findSplit_cons_match hm]
        have hlen : (rest.drop (k - 1)).length < n := by
          have := List.length_drop (k - 1) rest
          simp at hn
          omega
        have hrec := ih _ hlen (rest.drop (k - 1)) rfl
        refine ⟨?_, hrec.2⟩
        intro gm h
        rcases List.mem_cons.mp h with h | h
        · rw [h]; exact NoMatchIn_nil
        · exact hrec.1 gm h
      | none =>
        have hlen : rest.length < n := by simp at hn; omega
        have hrec := ih _ hlen rest rfl
        have hglue := findSplit_glue rest
        rw [findSplit_cons_nomatch hm]
        cases hps : (findSplit rest).1 with
        | nil =>
          rw [hps] at hglue
          have htail : (findSplit rest).2 = rest := hglue
          refine ⟨by intro gm h; simp at h, ?_⟩
          intro i
          cases i with
          | zero => rw [List.drop_zero]; rw [htail]; exact hm
          | succ j =>
            rw [htail, List.drop_succ_cons]
            exact (htail ▸ hrec.2) j
        | cons gm0 ps =>
          obtain ⟨g, m⟩ := gm0
          rw [hps] at hglue
          have hglue' : (c :: g) ++ (m ++ glueSeg ps (findSplit rest).2) = c :: rest := by
            show c :: (g ++ (m ++ glueSeg ps (findSplit rest).2)) = c :: rest
            have : g ++ m ++ glueSeg ps (findSplit rest).2 = rest := hglue
            rw [← List.append_assoc]
            rw [this]
          constructor
          · intro gm h
            rcases List.mem_cons.mp h with h | h
            · rw [h]
              intro i
              cases i with
              | zero =>
                rw [List.drop_zero]
                cases hcg : matchLen (c :: g) with
                | none => rfl
                | some j =>
                  exfalso
                  have := matchLen_isSome_append (m ++ glueSeg ps (findSplit rest).2)
                    (by rw [hcg]; rfl)
                  rw [hglue', hm] at this
                  simp at this
              | succ j =>
                rw [List.drop_succ_cons]
                exact hrec.1 (g, m) (by rw [hps]; exact List.mem_cons_self _ _) j
            · exact hrec.1 gm (by rw [hps]; exact List.mem_cons_of_mem _ h)
          · exact hrec.2
      

theorem pySub_cons_nomatch {c : Char} {rest : Str} (hm : matchLen (c :: rest) = none) :
    pySub (c :: rest) = c :: pySub rest := by
  show pySubGo (c :: rest) 0 = _
  rw [show pySubGo (c :: rest) 0 =
      (match matchLen (c :: rest) with
        | some n => pySubGo rest (n - 1)
        | none => c :: pySubGo rest 0 : Str)
      from rfl, hm]
  rfl

theorem pySub_eq_self {s : Str} (h : NoMatchIn s) : pySub s = s := by
  induction s with
  | nil => rfl
  | cons c rest ih =>
    have hm : matchLen (c :: rest) = none := by
      have := h 0
      rwa [List.drop_zero] at this
    rw [pySub_cons_nomatch hm]
    rw [ih]
    intro i
    have := h (i + 1)
    rwa [List.drop_succ_cons] at this

theorem NoMatchIn_strip {s : Str} (h : NoMatchIn s) : NoMatchIn (pyStrip s) := by
  obtain ⟨u, v, hs⟩ := pyStrip_decomp s
  rw [List.append_assoc] at hs
  exact NoMatchIn_decomp (hs ▸ h)

theorem pyFindall_nil_iff {s : Str} : pyFindall s = [] ↔ (findSplit s).1 = [] := by
  unfold pyFindall
  exact List.map_eq_nil_iff

theorem withTail_eq (base : List (Str × Str)) (t : Str) (hne : base ≠ []) :
    withTail base t =
      base.dropLast ++ [(pyStrip ((base.getLast hne).1 ++ ' ' :: t), (base.getLast hne).2)] := by
  unfold withTail
  rw [List.getLast?_eq_getLast base hne]

theorem withTail_map_snd (base : List (Str × Str)) (t : Str) (hne : base ≠ []) :
    (withTail base t).map Prod.snd = base.map Prod.snd := by
  rw [withTail_eq base t hne]
  conv_rhs => rw [← List.dropLast_append_getLast hne]
  simp

theorem withTail_length (base : List (Str × Str)) (t : Str) (hne : base ≠ []) :
    (withTail base t).length = base.length := by
  rw [withTail_eq base t hne]
  have := List.length_pos.mpr hne
  simp [List.length_dropLast]
  omega

/-- C8: for input whose stripped text decomposes into `N ≥ 2` URL matches
(`gms`, with their gap texts) and a trailing gap `tl`, the splitter returns
exactly `N` `(meta, link)` pairs: the links are the `N` URLs in the order
they appeared, each pair's meta is the (stripped) text between the end of
the previous URL (or the start of the string) and the start of the current
URL, and the (stripped) trailing text after the last URL is appended to the
last pair's meta. -/
theorem c8_multi_pair_partition (raw : Str) (gms : List (Str × Str)) (tl : Str)
    (h : findSplit (pyStrip raw) = (gms, tl)) (hN : 2 ≤ gms.length) :
    split_sources raw = claimPairs gms tl
    ∧ (split_sources raw).map Prod.snd = gms.map Prod.snd
    ∧ (split_sources raw).length = gms.length := by
  have hgaps := findSplit_nomatch (pyStrip raw)
  rw [h] at hgaps
  have hbase : gms.map (fun gm => (pyStrip (pySub (pyStrip gm.1)), gm.2)) =
      gms.map (fun gm => (pyStrip gm.1, gm.2)) := by
    apply List.map_congr_left
    intro gm hmem
    have hnm : NoMatchIn gm.1 := hgaps.1 gm hmem
    rw [pySub_eq_self (NoMatchIn_strip hnm), pyStrip_idem]
  have htail : pyStrip (pySub (pyStrip tl)) = pyStrip tl := by
    rw [pySub_eq_self (NoMatchIn_strip hgaps.2), pyStrip_idem]
  obtain ⟨gm1, gm2, grest, rfl⟩ : ∃ a b r, gms = a :: b :: r := by
    match gms, hN with
    | a :: b :: r, _ => exact ⟨a, b, r, rfl⟩
  have hsplit : split_sources raw =
      (if pyStrip tl = [] then
        (gm1 :: gm2 :: grest).map (fun gm => (pyStrip gm.1, gm.2))
      else withTail ((gm1 :: gm2 :: grest).map (fun gm => (pyStrip gm.1, gm.2)))
        (pyStrip tl)) := by
    unfold split_sources
    dsimp only
    rw [h]
    dsimp only
    rw [hbase, htail]
  have hclaim : claimPairs (gm1 :: gm2 :: grest) tl =
      (if pyStrip tl = [] then
        (gm1 :: gm2 :: grest).map (fun gm => (pyStrip gm.1, gm.2))
      else withTail ((gm1 :: gm2 :: grest).map (fun gm => (pyStrip gm.1, gm.2)))
        (pyStrip tl)) := rfl
  refine ⟨by rw [hsplit, hclaim], ?_, ?_⟩
  · rw [hsplit]
    by_cases ht : pyStrip tl = []
    · rw [if_pos ht]
      simp
    · rw [if_neg ht, withTail_map_snd _ _ (by simp)]
      simp
  · rw [hsplit]
    by_cases ht : pyStrip tl = []
    · rw [if_pos ht]
      simp
    · rw [if_neg ht, withTail_length _ _ (by simp)]
      simp

/-- Witness for C8: the theorem applied to
`"Smith 2020 https://a.com tail1 https://b.com tail2"`. -/
theorem c8_multi_pair_partition_witness :
    (findSplit (pyStrip (lit "Smith 2020 https://a.com tail1 https://b.com tail2")) =
      ([(lit "Smith 2020 ", lit "https://a.com"), (lit " tail1 ", lit "https://b.com")],
        lit " tail2"))
    ∧ 2 ≤ ([(lit "Smith 2020 ", lit "https://a.com"),
        (lit " tail1 ", lit "https://b.com")] : List (Str × Str)).length
    ∧ (split_sources (lit "Smith 2020 https://a.com tail1 https://b.com tail2") =
        claimPairs [(lit "Smith 2020 ", lit "https://a.com"), (lit " tail1 ", lit "https://b.com")]
          (lit " tail2")
      ∧ (split_sources (lit "Smith 2020 https://a.com tail1 https://b.com tail2")).map Prod.snd =
        ([(lit "Smith 2020 ", lit "https://a.com"), (lit " tail1 ", lit "https://b.com")] :
          List (Str × Str)).map Prod.snd
      ∧ (split_sources (lit "Smith 2020 https://a.com tail1 https://b.com tail2")).length =
        ([(lit "Smith 2020 ", lit "https://a.com"), (lit " tail1 ", lit "https://b.com")] :
          List (Str × Str)).length) :=
  ⟨by decide, by decide,
    c8_multi_pair_partition (lit "Smith 2020 https://a.com tail1 https://b.com tail2")
      [(lit "Smith 2020 ", lit "https://a.com"), (lit " tail1 ", lit "https://b.com")]
      (lit " tail2") (by decide) (by decide)⟩

/-- Counterexample for C2 as stated: on a zero-URL input the splitter does
not return the whole string as a meta pair — it returns no pairs at all. -/
theorem c2_counterexample :
    split_sources (lit "hello world") = []
    ∧ split_sources (lit "hello world") ≠ [(lit "hello world", lit "")] := by
  decide

theorem split_sources_nil_of_no_match {raw : Str}
    (h : pyFindall (pyStrip raw) = []) : split_sources raw = [] := by
  have hnil : (findSplit (pyStrip raw)).1 = [] := pyFindall_nil_iff.mp h
  unfold split_sources
  dsimp only
  rw [hnil]

/-- C2 (amended): on a zero-URL input the splitter returns no pairs (not the
text as a meta pair); it is the accumulation step of `handle_message` that
appends the whole stripped text to the session's `meta`, leaving `link`
untouched; and re-splitting the stripped zero-URL text again yields no
pairs. -/
theorem c2_amended_zero_urls (raw : Str) (env : TgEnv) (parts : Parts)
    (h : pyFindall (pyStrip raw) = []) :
    split_sources raw = []
    ∧ split_sources (pyStrip raw) = []
    ∧ (handle_message env parts raw).1.link = parts.link
    ∧ (handle_message env parts raw).1.meta =
        (if parts.meta = [] then pyStrip raw
         else pyStrip (parts.meta ++ ' ' :: pyStrip raw)) := by
  have h2 : split_sources (pyStrip raw) = [] :=
    split_sources_nil_of_no_match (by rwa [pyStrip_idem])
  have hacc : accumulateParts parts (pyStrip raw) =
      (if parts.meta ≠ [] then
        { parts with meta := pyStrip (parts.meta ++ ' ' :: pyStrip raw) }
      else { parts with meta := pyStrip raw }) := by
    unfold accumulateParts
    rw [h]
  have hfst : (handle_message env parts raw).1 =
      (if parts.meta ≠ [] then
        { parts with meta := pyStrip (parts.meta ++ ' ' :: pyStrip raw) }
      else { parts with meta := pyStrip raw }) := by
    unfold handle_message
    dsimp only
    rw [h2]
    rw [if_neg (by decide : ¬ (1 < ([] : List (Str × Str)).length))]
    rw [← hacc]
    split <;> first | rfl | (split <;> rfl)
  refine ⟨split_sources_nil_of_no_match h, h2, ?_, ?_⟩
  · rw [hfst]
    by_cases hm : parts.meta = [] <;> simp [hm]
  · rw [hfst]
    by_cases hm : parts.meta = [] <;> simp [hm]

/-- Witness for C2 (amended): the theorem applied to `"hello"` with empty
session parts. -/
theorem c2_amended_zero_urls_witness :
    pyFindall (pyStrip (lit "hello")) = []
    ∧ (split_sources (lit "hello") = []
      ∧ split_sources (pyStrip (lit "hello")) = []
      ∧ (handle_message ⟨true, true⟩ ⟨none, []⟩ (lit "hello")).1.link = (⟨none, []⟩ : Parts).link
      ∧ (handle_message ⟨true, true⟩ ⟨none, []⟩ (lit "hello")).1.meta =
          (if (⟨none, []⟩ : Parts).meta = [] then pyStrip (lit "hello")
           else pyStrip ((⟨none, []⟩ : Parts).meta ++ ' ' :: pyStrip (lit "hello")))) :=
  ⟨by decide, c2_amended_zero_urls (lit "hello") ⟨true, true⟩ ⟨none, []⟩ (by decide)⟩

/-- Counterexample for C3 as stated: after a non-transient 400 response (and
likewise after a malformed-JSON 200 response) both gateways make a second
POST — the second attempt's answer is returned and the POST count is 2, so
the error is not surfaced immediately and a retry does happen. -/
theorem c3_counterexample :
    call_deepseek [.resp 400 (some (lit "x")), .resp 200 (some (lit "Hi"))] = (lit "Hi", 2)
    ∧ call_zai [.resp 400 (some (lit "x")), .resp 200 (some (lit "Hi"))] = (lit "Hi", 2)
    ∧ call_deepseek [.resp 200 none, .resp 200 (some (lit "Hi"))] = (lit "Hi", 2)
    ∧ call_zai [.resp 200 none, .resp 200 (some (lit "Hi"))] = (lit "Hi", 2) := by
  decide

theorem call_deepseek_go_cons (k : Nat) (a : LLMAttempt) (rest : List LLMAttempt) :
    call_deepseek_go k (a :: rest) =
      (match a with
        | .resp st content =>
          if transientStatus st = true ∧ k < 5 then
            ((call_deepseek_go (k + 1) rest).1, (call_deepseek_go (k + 1) rest).2 + 1)
          else if 400 ≤ st then
            if k < 5 then
              ((call_deepseek_go (k + 1) rest).1, (call_deepseek_go (k + 1) rest).2 + 1)
            else (overloadedMsg, 1)
          else
            match content with
            | none =>
              if k < 5 then
                ((call_deepseek_go (k + 1) rest).1, (call_deepseek_go (k + 1) rest).2 + 1)
              else (overloadedMsg, 1)
            | some c => (if pyStrip c = [] then emptyReplyMsg else pyStrip c, 1)
        | .timeout =>
          if k < 5 then
            ((call_deepseek_go (k + 1) rest).1, (call_deepseek_go (k + 1) rest).2 + 1)
          else (slowServiceMsg, 1)
        | .raises =>
          if k < 5 then
            ((call_deepseek_go (k + 1) rest).1, (call_deepseek_go (k + 1) rest).2 + 1)
          else (overloadedMsg, 1)) := rfl

theorem call_zai_go_cons (k : Nat) (a : LLMAttempt) (rest : List LLMAttempt) :
    call_zai_go k (a :: rest) =
      (match a with
        | .resp st content =>
          if transientStatus st = true ∧ k < 5 then
            ((call_zai_go (k + 1) rest).1, (call_zai_go (k + 1) rest).2 + 1)
          else if 400 ≤ st then
            if k < 5 then
              ((call_zai_go (k + 1) rest).1, (call_zai_go (k + 1) rest).2 + 1)
            else (overloadedMsg, 1)
          else
            match content with
            | none =>
              if k < 5 then
                ((call_zai_go (k + 1) rest).1, (call_zai_go (k + 1) rest).2 + 1)
              else (overloadedMsg, 1)
            | some c => (if pyStrip c = [] then emptyReplyMsg else pyStrip c, 1)
        | .timeout =>
          if k < 5 then
            ((call_zai_go (k + 1) rest).1, (call_zai_go (k + 1) rest).2 + 1)
          else (slowServiceMsg, 1)
        | .raises =>
          if k < 5 then
            ((call_zai_go (k + 1) rest).1, (call_zai_go (k + 1) rest).2 + 1)
          else (overloadedMsg, 1)) := rfl

theorem call_deepseek_go_all_fail :
    ∀ (attempts : List LLMAttempt) (k : Nat),
      (∀ a ∈ attempts, isNonTransientFailure a = true) →
      1 ≤ k → k ≤ 5 → attempts.length + k = 6 →
      call_deepseek_go k attempts = (overloadedMsg, attempts.length) := by
  intro attempts
  induction attempts with
  | nil => intro k _ _ h5 hlen; simp at hlen; omega
  | cons a rest ih =>
    intro k hall h1 h5 hlen
    have ha := hall a (List.mem_cons_self a rest)
    have hlen' : rest.length + k = 5 := by simp at hlen; omega
    have hretry : k < 5 →
        ((call_deepseek_go (k + 1) rest).1, (call_deepseek_go (k + 1) rest).2 + 1) =
          (overloadedMsg, (a :: rest).length) := by
      intro hk
      have := ih (k + 1) (fun b hb => hall b (List.mem_cons_of_mem a hb))
        (by omega) (by omega) (by omega)
      rw [this]
      simp
    have hstop : ¬ k < 5 → rest.length = 0 := by intro hk; omega
    cases a with
    | timeout => simp [isNonTransientFailure] at ha
    | raises => simp [isNonTransientFailure] at ha
    | resp st content =>
      simp only [isNonTransientFailure, Bool.and_eq_true, Bool.or_eq_true,
        Bool.not_eq_true', decide_eq_true_eq, beq_iff_eq] at ha
      rw [call_deepseek_go_cons]
      dsimp only
      rw [if_neg (by simp [ha.1] : ¬ (transientStatus st = true ∧ k < 5))]
      by_cases h4 : 400 ≤ st
      · rw [if_pos h4]
        by_cases hk : k < 5
        · rw [if_pos hk, hretry hk]
        · rw [if_neg hk]
          simp [hstop hk]
      · rcases ha.2 with h | hc
        · exact absurd h h4
        · rw [if_neg h4, hc]
          dsimp only
          by_cases hk : k < 5
          · rw [if_pos hk, hretry hk]
            simp
          · rw [if_neg hk]
            simp [hstop hk]

theorem call_zai_go_all_fail :
    ∀ (attempts : List LLMAttempt) (k : Nat),
      (∀ a ∈ attempts, isNonTransientFailure a = true) →
      1 ≤ k → k ≤ 5 → attempts.length + k = 6 →
      call_zai_go k attempts = (overloadedMsg, attempts.length) := by
  intro attempts
  induction attempts with
  | nil => intro k _ _ h5 hlen; simp at hlen; omega
  | cons a rest ih =>
    intro k hall h1 h5 hlen
    have ha := hall a (List.mem_cons_self a rest)
    have hlen' : rest.length + k = 5 := by simp at hlen; omega
    have hretry : k < 5 →
        ((call_zai_go (k + 1) rest).1, (call_zai_go (k + 1) rest).2 + 1) =
          (overloadedMsg, (a :: rest).length) := by
      intro hk
      have := ih (k + 1) (fun b hb => hall b (List.mem_cons_of_mem a hb))
        (by omega) (by omega) (by omega)
      rw [this]
      simp
    have hstop : ¬ k < 5 → rest.length = 0 := by intro hk; omega
    cases a with
    | timeout => simp [isNonTransientFailure] at ha
    | raises => simp [isNonTransientFailure] at ha
    | resp st content =>
      simp only [isNonTransientFailure, Bool.and_eq_true, Bool.or_eq_true,
        Bool.not_eq_true', decide_eq_true_eq, beq_iff_eq] at ha
      rw [call_zai_go_cons]
      dsimp only
      rw [if_neg (by simp [ha.1] : ¬ (transientStatus st = true ∧ k < 5))]
      by_cases h4 : 400 ≤ st
      · rw [if_pos h4]
        by_cases hk : k < 5
        · rw [if_pos hk, hretry hk]
        · rw [if_neg hk]
          simp [hstop hk]
      · rcases ha.2 with h | hc
        · exact absurd h h4
        · rw [if_neg h4, hc]
          dsimp only
          by_cases hk : k < 5
          · rw [if_pos hk, hretry hk]
            simp
          · rw [if_neg hk]
            simp [hstop hk]

/-- C3 (amended): a non-transient failure (4xx other than 429, or malformed
JSON) is not surfaced immediately — both gateways retry it like a transient
failure, up to the fixed 5-attempt ceiling, and only after exhausting all 5
attempts return the fixed user-safe overloaded string (performing 5 POSTs). -/
theorem c3_amended_non_transient_retried (attempts : List LLMAttempt)
    (hall : ∀ a ∈ attempts, isNonTransientFailure a = true)
    (hlen : attempts.length = 5) :
    call_deepseek attempts = (overloadedMsg, 5)
    ∧ call_zai attempts = (overloadedMsg, 5) := by
  constructor
  · show call_deepseek_go 1 attempts = _
    rw [call_deepseek_go_all_fail attempts 1 hall (by omega) (by omega) (by omega), hlen]
  · show call_zai_go 1 attempts = _
    rw [call_zai_go_all_fail attempts 1 hall (by omega) (by omega) (by omega), hlen]

/-- Witness for C3 (amended): five malformed 400 responses in a row. -/
theorem c3_amended_non_transient_retried_witness :
    (∀ a ∈ List.replicate 5 (LLMAttempt.resp 400 none), isNonTransientFailure a = true)
    ∧ (List.replicate 5 (LLMAttempt.resp 400 none)).length = 5
    ∧ (call_deepseek (List.replicate 5 (LLMAttempt.resp 400 none)) = (overloadedMsg, 5)
      ∧ call_zai (List.replicate 5 (LLMAttempt.resp 400 none)) = (overloadedMsg, 5)) :=
  ⟨by decide, by decide,
    c3_amended_non_transient_retried (List.replicate 5 (LLMAttempt.resp 400 none))
      (by decide) (by decide)⟩

theorem force_parenthesized_shape (link meta : Option Str) (model_text : Str) :
    ∃ body, force_parenthesized link meta model_text = '(' :: body ++ [')'] := by
  unfold force_parenthesized
  dsimp only
  by_cases hv : verbatimOk (pyStrip model_text) = true
  · rw [if_pos hv]
    simp only [verbatimOk, Bool.and_eq_true, beq_iff_eq] at hv
    obtain ⟨⟨hhead, hlast⟩, -⟩ := hv
    cases hx : pyStrip model_text with
    | nil => rw [hx] at hhead; simp at hhead
    | cons c rest =>
      rw [hx] at hhead hlast
      simp at hhead
      have hne : rest ≠ [] := by
        intro hr
        rw [hr] at hlast
        simp [List.getLast?] at hlast
        rw [hhead] at hlast
        exact absurd hlast (by decide)
      have hrest : rest = rest.dropLast ++ [rest.getLast hne] := by
        rw [List.dropLast_append_getLast hne]
      have hlastc : rest.getLast hne = ')' := by
        have := List.getLast?_eq_getLast (c :: rest) (by simp)
        rw [this] at hlast
        simp at hlast
        rw [List.getLast_cons hne] at hlast
        exact hlast
      refine ⟨rest.dropLast, ?_⟩
      rw [hhead]
      conv_lhs => rw [hrest, hlastc]
      simp
  · rw [if_neg hv]
    split <;> first
      | exact ⟨_, rfl⟩
      | (split <;> exact ⟨_, rfl⟩)

theorem map_paren_shape (f : Char → Char) (h1 : f '(' = '(') (h2 : f ')' = ')')
    (b : Str) : ('(' :: b ++ [')']).map f = '(' :: b.map f ++ [')'] := by
  simp [h1, h2]

theorem first_formatted_line_shape (model_text : Str) (link meta : Option Str) :
    ∃ body, first_formatted_line model_text link meta = '(' :: body ++ [')'] := by
  obtain ⟨b, hb⟩ := force_parenthesized_shape link meta model_text
  refine ⟨(b.map (fun c => if c = '\r' then ' ' else c)).map
    (fun c => if c = '\n' then ' ' else c), ?_⟩
  unfold first_formatted_line
  rw [hb]
  rw [map_paren_shape _ (by decide) (by decide), map_paren_shape _ (by decide) (by decide)]
  exact pyStrip_sandwich '(' ')' _ (by decide) (by decide)

theorem truncate4096_length_le (s : Str) : (truncate4096 s).length ≤ 4096 := by
  unfold truncate4096
  split
  · next h => simp [List.length_take]
  · next h => omega

/-- C5 (amended): for any model text and fallback link/meta,
`first_formatted_line` matches the well-formedness pattern and contains no
newline or carriage-return characters; the ≤ 4096-character bound holds for
the worker's truncation of it (`formatted[:4090] + "…"`, applied in
`_format_worker` before delivery), not for `first_formatted_line` itself. -/
theorem c5_amended_formatter_well_formed (model_text : Str) (link meta : Option Str) :
    wellFormedShape (first_formatted_line model_text link meta)
    ∧ '\n' ∉ first_formatted_line model_text link meta
    ∧ '\r' ∉ first_formatted_line model_text link meta
    ∧ (truncate4096 (first_formatted_line model_text link meta)).length ≤ 4096 := by
  obtain ⟨body, hb⟩ := first_formatted_line_shape model_text link meta
  have hbody : ∀ c ∈ body, c ≠ '\n' ∧ c ≠ '\r' := by
    obtain ⟨b0, hb0⟩ := force_parenthesized_shape link meta model_text
    have : first_formatted_line model_text link meta =
        '(' :: (b0.map (fun c => if c = '\r' then ' ' else c)).map
          (fun c => if c = '\n' then ' ' else c) ++ [')'] := by
      unfold first_formatted_line
      rw [hb0]
      rw [map_paren_shape _ (by decide) (by decide), map_paren_shape _ (by decide) (by decide)]
      exact pyStrip_sandwich '(' ')' _ (by decide) (by decide)
    rw [hb] at this
    have hbeq : body = (b0.map (fun c => if c = '\r' then ' ' else c)).map
        (fun c => if c = '\n' then ' ' else c) := by
      have h1 := congrArg List.tail this
      simp at h1
      rw [List.map_map]
      exact h1
    intro c hc
    rw [hbeq] at hc
    obtain ⟨a, ha, hfa⟩ := List.mem_map.mp hc
    obtain ⟨a0, _, hfa0⟩ := List.mem_map.mp ha
    constructor
    · intro hcn
      rw [hcn] at hfa
      by_cases h : a = '\n'
      · rw [if_pos h] at hfa; exact absurd hfa (by decide)
      · rw [if_neg h] at hfa; exact h hfa
    · intro hcr
      rw [hcr] at hfa
      have har : a = '\r' := by
        by_cases h : a = '\n'
        · rw [if_pos h] at hfa; exact absurd hfa (by decide)
        · rw [if_neg h] at hfa; exact hfa
      rw [har] at hfa0
      by_cases h : a0 = '\r'
      · rw [if_pos h] at hfa0; exact absurd hfa0 (by decide)
      · rw [if_neg h] at hfa0; exact h hfa0
  refine ⟨Or.inr ⟨body, hb⟩, ?_, ?_, truncate4096_length_le _⟩
  · rw [hb]
    intro hmem
    rcases List.mem_cons.mp hmem with h | h
    · exact absurd h (by decide)
    · rcases List.mem_append.mp h with h | h
      · exact (hbody _ h).1 rfl
      · exact absurd (List.mem_singleton.mp h) (by decide)
  · rw [hb]
    intro hmem
    rcases List.mem_cons.mp hmem with h | h
    · exact absurd h (by decide)
    · rcases List.mem_append.mp h with h | h
      · exact (hbody _ h).2 rfl
      · exact absurd (List.mem_singleton.mp h) (by decide)

theorem force_parenthesized_constructed (lnk mt mtext : Str)
    (hng : verbatimOk (pyStrip mtext) = false)
    (hl : pyStrip lnk ≠ [])
    (hm : pyStrip mt ≠ []) :
    force_parenthesized (some lnk) (some mt) mtext =
      '(' :: (pyStrip lnk ++ ' ' :: '\'' :: safeMeta (pyStrip mt) ++ ['\'']) ++ [')'] := by
  unfold force_parenthesized
  dsimp only
  rw [if_neg (by rw [hng]; exact Bool.false_ne_true)]
  simp only [Option.getD]
  simp only [if_neg hl, if_neg hm, if_pos hl]

theorem force_parenthesized_nolink_nosearch (mt mtext : Str)
    (hng : verbatimOk (pyStrip mtext) = false)
    (hs : pySearch (pyStrip mtext) = none)
    (hm : pyStrip mt ≠ []) :
    force_parenthesized none (some mt) mtext =
      '(' :: safeMeta (pyStrip mt) ++ [')'] := by
  unfold force_parenthesized
  dsimp only
  rw [if_neg (by rw [hng]; exact Bool.false_ne_true)]
  simp only [Option.getD]
  simp only [show pyStrip ([] : Str) = [] from rfl, if_pos rfl, hs]
  simp only [if_neg hm]
  rw [if_neg (by simp)]

theorem pyStrip_replicate_a (n : Nat) :
    pyStrip (List.replicate (n + 1) 'a') = List.replicate (n + 1) 'a' := by
  apply pyStrip_eq_self
  · intro c h
    rw [List.replicate_succ] at h
    simp at h
    subst h
    decide
  · intro c h
    rw [List.replicate_succ'] at h
    rw [List.getLast?_concat] at h
    simp at h
    subst h
    decide

/-- Counterexample for C5 as stated: `first_formatted_line` itself can return
far more than 4096 characters (here 4202) — the 4096 ceiling only holds
after the worker's separate truncation step. -/
theorem c5_counterexample :
    4096 < (first_formatted_line (lit "") none (some (List.replicate 4200 'a'))).length := by
  have hstrip : pyStrip (List.replicate 4200 'a') = List.replicate 4200 'a' := by
    rw [show (4200 : Nat) = 4199 + 1 from rfl]
    exact pyStrip_replicate_a 4199
  have hm : pyStrip (List.replicate 4200 'a') ≠ [] := by
    rw [hstrip]
    intro h
    have h0 : (List.replicate 4200 'a').length = ([] : Str).length := congrArg List.length h
    rw [List.length_replicate] at h0
    exact absurd h0 (by decide)
  have hfp := force_parenthesized_nolink_nosearch (List.replicate 4200 'a') (lit "")
    (by decide) (by decide) hm
  have hsm : safeMeta (pyStrip (List.replicate 4200 'a')) = List.replicate 4200 'a' := by
    rw [hstrip]
    unfold safeMeta
    rw [List.map_replicate, List.map_replicate, List.map_replicate]
    exact congrArg (List.replicate 4200) (by decide)
  have hmap1 : (List.replicate 4200 'a').map (fun c => if c = '\r' then ' ' else c) =
      List.replicate 4200 'a' := by
    rw [List.map_replicate]
    exact congrArg (List.replicate 4200) (by decide)
  have hmap2 : (List.replicate 4200 'a').map (fun c => if c = '\n' then ' ' else c) =
      List.replicate 4200 'a' := by
    rw [List.map_replicate]
    exact congrArg (List.replicate 4200) (by decide)
  unfold first_formatted_line
  rw [hfp, hsm]
  rw [map_paren_shape _ (by decide) (by decide), hmap1,
    map_paren_shape _ (by decide) (by decide), hmap2]
  rw [pyStrip_sandwich '(' ')' _ (by decide) (by decide)]
  simp only [List.length_append, List.length_cons, List.length_replicate,
    List.length_nil]
  omega

theorem safeMeta_eq_mapApos (mt : Str) : safeMeta mt = mt.map mapApos := by
  unfold safeMeta
  rw [List.map_map, List.map_map]
  apply List.map_congr_left
  intro c _
  simp only [Function.comp]
  by_cases h1 : c = typoApos
  · subst h1; decide
  · by_cases h2 : c = backquote
    · subst h2; decide
    · by_cases h3 : c = '\''
      · subst h3; decide
      · rw [if_neg h1, if_neg h2, if_neg h3]
        unfold mapApos
        rw [if_neg (by tauto)]

theorem mapApos_ne_quote (c : Char) : mapApos c ≠ '\'' := by
  unfold mapApos
  split
  · decide
  · next h =>
    intro hc
    exact h (Or.inl hc)

theorem splitOnDelim_exact (L S : Str) (hL : ∀ c ∈ L, pySpace c = false) :
    splitOnDelim (L ++ ' ' :: '\'' :: S) = some (L, S) := by
  induction L with
  | nil =>
    show splitOnDelim (' ' :: '\'' :: S) = some ([], S)
    rw [splitOnDelim]
    rw [if_pos ⟨rfl, rfl⟩]
  | cons c L' ih =>
    have hc : pySpace c = false := hL c (List.mem_cons_self c L')
    have hcs : c ≠ ' ' := by
      intro h
      rw [h] at hc
      exact absurd hc (by decide)
    have ihres := ih (fun b hb => hL b (List.mem_cons_of_mem c hb))
    cases L' with
    | nil =>
      show splitOnDelim (c :: ' ' :: '\'' :: S) = some ([c], S)
      rw [splitOnDelim]
      rw [if_neg (by rintro ⟨h1, h2⟩; exact absurd h2 (by decide))]
      rw [show splitOnDelim (' ' :: '\'' :: S) = some ([], S) from ihres]
    | cons d L'' =>
      show splitOnDelim (c :: d :: (L'' ++ ' ' :: '\'' :: S)) = some (c :: d :: L'', S)
      rw [splitOnDelim]
      rw [if_neg (by rintro ⟨h1, h2⟩; exact hcs h1)]
      rw [show splitOnDelim (d :: (L'' ++ ' ' :: '\'' :: S)) = some (d :: L'', S) from ihres]

theorem parseShape_of_formatted (L S : Str) (hLne : L ≠ [])
    (hL : ∀ c ∈ L, pySpace c = false) :
    parseShape ('(' :: (L ++ ' ' :: '\'' :: S ++ ['\'']) ++ [')']) = some (L, S) := by
  have hshape : ('(' :: (L ++ ' ' :: '\'' :: S ++ ['\'']) ++ [')'] : Str) =
      '(' :: ((L ++ ' ' :: '\'' :: S) ++ ['\'']) ++ [')'] := by
    simp
  rw [hshape]
  unfold parseShape
  rw [if_pos ?hcond]
  case hcond =>
    constructor
    · rfl
    · rw [show ('(' :: ((L ++ ' ' :: '\'' :: S) ++ ['\'']) ++ [')'] : Str) =
        ('(' :: ((L ++ ' ' :: '\'' :: S))) ++ ['\'', ')'] from by simp]
      rw [List.reverse_append]
      rfl
  have hmid : (('(' :: ((L ++ ' ' :: '\'' :: S) ++ ['\'']) ++ [')'] : Str).drop
      1).dropLast.dropLast = L ++ ' ' :: '\'' :: S := by
    have h1 : ('(' :: ((L ++ ' ' :: '\'' :: S) ++ ['\'']) ++ [')'] : Str).drop 1 =
        ((L ++ ' ' :: '\'' :: S) ++ ['\'']) ++ [')'] := rfl
    rw [h1, List.dropLast_concat, List.dropLast_concat]
  rw [hmid, splitOnDelim_exact L S hL]
  show (if L ≠ [] ∧ (List.all L fun c => !pySpace c) = true then some (L, S) else none) =
    some (L, S)
  rw [if_pos ⟨hLne, by rw [List.all_eq_true]; intro c hc; simp [hL c hc]⟩]

/-- C7: for the formatter's fallback construction (any model text that fails
the verbatim guard, any nonempty link and metadata), every apostrophe-like
character of the metadata (`'`, backquote, `’`) is mapped to the typographic
`’`, the constructed metadata contains no plain `'` at all, and the emitted
output parses back through the well-formedness pattern to exactly the
(link, mapped-metadata) pair — the delimiting quotes are unambiguous. -/
theorem c7_apostrophe_safety (lnk mt mtext : Str)
    (hng : verbatimOk (pyStrip mtext) = false)
    (hl : pyStrip lnk ≠ [])
    (hlw : ∀ c ∈ pyStrip lnk, pySpace c = false)
    (hm : pyStrip mt ≠ []) :
    parseShape (force_parenthesized (some lnk) (some mt) mtext) =
      some (pyStrip lnk, (pyStrip mt).map mapApos)
    ∧ (∀ c ∈ (pyStrip mt).map mapApos, c ≠ '\'')
    ∧ mapApos '\'' = typoApos ∧ mapApos backquote = typoApos ∧ mapApos typoApos = typoApos := by
  refine ⟨?_, ?_, by decide, by decide, by decide⟩
  · rw [force_parenthesized_constructed lnk mt mtext hng hl hm, safeMeta_eq_mapApos]
    exact parseShape_of_formatted (pyStrip lnk) ((pyStrip mt).map mapApos) hl hlw
  · intro c hc
    obtain ⟨a, _, hfa⟩ := List.mem_map.mp hc
    rw [← hfa]
    exact mapApos_ne_quote a

/-- Witness for C7: link `https://e.org`, metadata `Nurses' Health Study`,
model text `garbage`. -/
theorem c7_apostrophe_safety_witness :
    (verbatimOk (pyStrip (lit "garbage")) = false
      ∧ pyStrip (lit "https://e.org") ≠ []
      ∧ (∀ c ∈ pyStrip (lit "https://e.org"), pySpace c = false)
      ∧ pyStrip (lit "Nurses' Health Study") ≠ [])
    ∧ (parseShape (force_parenthesized (some (lit "https://e.org"))
          (some (lit "Nurses' Health Study")) (lit "garbage")) =
        some (pyStrip (lit "https://e.org"), (pyStrip (lit "Nurses' Health Study")).map mapApos)
      ∧ (∀ c ∈ (pyStrip (lit "Nurses' Health Study")).map mapApos, c ≠ '\'')
      ∧ mapApos '\'' = typoApos ∧ mapApos backquote = typoApos ∧ mapApos typoApos = typoApos) :=
  ⟨⟨by decide, by decide, by decide, by decide⟩,
    c7_apostrophe_safety (lit "https://e.org") (lit "Nurses' Health Study") (lit "garbage")
      (by decide) (by decide) (by decide) (by decide)⟩

/-- Counterexample for C6 as stated: a single message holding two URLs and no
descriptive text drives the multi-source batch branch, which invokes the
worker for each pair even though every meta is empty and the session's parts
(returned unchanged) have neither link nor meta set. -/
theorem c6_counterexample :
    TgCall.spawnWorker (some (lit "https://a.com")) [] none ∈
      (handle_message ⟨true, true⟩ ⟨none, []⟩ (lit "https://a.com https://b.com")).2
    ∧ (handle_message ⟨true, true⟩ ⟨none, []⟩ (lit "https://a.com https://b.com")).1 =
      ⟨none, []⟩ := by
  decide

/-- C6 (amended): on the single-source path (at most one URL pair in the
message) the worker is spawned exactly when both accumulated `link` and
`meta` are truthy, and otherwise no worker is invoked and the user is
prompted for the missing part; the multi-source batch path (two or more
URLs, see the counterexample) invokes the worker for every pair even with
an empty meta. -/
theorem c6_amended_spawn_guard (env : TgEnv) (parts : Parts) (text : Str)
    (h : (split_sources (pyStrip text)).length ≤ 1) :
    ((truthyOpt (handle_message env parts text).1.link = true
        ∧ (handle_message env parts text).1.meta ≠ []) →
      TgCall.spawnWorker (handle_message env parts text).1.link
        (handle_message env parts text).1.meta
        (if env.sendOk then some 1 else none) ∈ (handle_message env parts text).2)
    ∧ (¬ (truthyOpt (handle_message env parts text).1.link = true
        ∧ (handle_message env parts text).1.meta ≠ []) →
      (∀ l m p, TgCall.spawnWorker l m p ∉ (handle_message env parts text).2)
      ∧ (truthyOpt (handle_message env parts text).1.link = false →
          TgCall.sendMsg promptLinkMsg true ∈ (handle_message env parts text).2)
      ∧ (truthyOpt (handle_message env parts text).1.link = true →
          TgCall.sendMsg promptMetaMsg true ∈ (handle_message env parts text).2)) := by
  unfold handle_message
  dsimp only
  rw [if_neg (by omega : ¬ 1 < (split_sources (pyStrip text)).length)]
  generalize accumulateParts parts (pyStrip text) = p1
  split
  · next hc =>
    constructor
    · intro _
      simp [tg_send_message]
    · intro hnc
      exact absurd hc hnc
  · next hnc =>
    split
    · next hnl =>
      refine ⟨fun hc => absurd hc hnc, fun _ => ⟨?_, ?_, ?_⟩⟩
      · intro l m p
        simp
      · intro _
        simp
      · intro hl
        exact absurd hl hnl
    · next hl =>
      refine ⟨fun hc => absurd hc hnc, fun _ => ⟨?_, ?_, ?_⟩⟩
      · intro l m p
        simp
      · intro hfalse
        have htrue := not_not.mp hl
        rw [hfalse] at htrue
        exact absurd htrue (by decide)
      · intro _
        simp

/-- Witness for C6 (amended): one URL plus text in a single message. -/
theorem c6_amended_spawn_guard_witness :
    (split_sources (pyStrip (lit "Smith 2020 https://e.org"))).length ≤ 1
    ∧ (((truthyOpt (handle_message ⟨true, true⟩ ⟨none, []⟩ (lit "Smith 2020 https://e.org")).1.link = true
        ∧ (handle_message ⟨true, true⟩ ⟨none, []⟩ (lit "Smith 2020 https://e.org")).1.meta ≠ []) →
      TgCall.spawnWorker (handle_message ⟨true, true⟩ ⟨none, []⟩ (lit "Smith 2020 https://e.org")).1.link
        (handle_message ⟨true, true⟩ ⟨none, []⟩ (lit "Smith 2020 https://e.org")).1.meta
        (if (⟨true, true⟩ : TgEnv).sendOk then some 1 else none) ∈
          (handle_message ⟨true, true⟩ ⟨none, []⟩ (lit "Smith 2020 https://e.org")).2)
    ∧ (¬ (truthyOpt (handle_message ⟨true, true⟩ ⟨none, []⟩ (lit "Smith 2020 https://e.org")).1.link = true
        ∧ (handle_message ⟨true, true⟩ ⟨none, []⟩ (lit "Smith 2020 https://e.org")).1.meta ≠ []) →
      (∀ l m p, TgCall.spawnWorker l m p ∉
          (handle_message ⟨true, true⟩ ⟨none, []⟩ (lit "Smith 2020 https://e.org")).2)
      ∧ (truthyOpt (handle_message ⟨true, true⟩ ⟨none, []⟩ (lit "Smith 2020 https://e.org")).1.link = false →
          TgCall.sendMsg promptLinkMsg true ∈
            (handle_message ⟨true, true⟩ ⟨none, []⟩ (lit "Smith 2020 https://e.org")).2)
      ∧ (truthyOpt (handle_message ⟨true, true⟩ ⟨none, []⟩ (lit "Smith 2020 https://e.org")).1.link = true →
          TgCall.sendMsg promptMetaMsg true ∈
            (handle_message ⟨true, true⟩ ⟨none, []⟩ (lit "Smith 2020 https://e.org")).2))) :=
  ⟨by decide,
    c6_amended_spawn_guard ⟨true, true⟩ ⟨none, []⟩ (lit "Smith 2020 https://e.org") (by decide)⟩

/-- Counterexample for C4 as stated: with the `amvera` provider the gateway
call is not wrapped in any watchdog — a call that takes 100000 seconds
(far beyond the 25-second watchdog) still yields the formatted citation,
identically to an instantaneous call, and never the fixed slow-service
message. -/
theorem c4_counterexample :
    workerOut (lit "amvera") ⟨true, lit "ok", none⟩ 100000 (.raises 0) (.raises 0) 25
        (some (lit "https://x")) (lit "m") =
      workerOut (lit "amvera") ⟨true, lit "ok", none⟩ 0 (.raises 0) (.raises 0) 25
        (some (lit "https://x")) (lit "m")
    ∧ workerOut (lit "amvera") ⟨true, lit "ok", none⟩ 100000 (.raises 0) (.raises 0) 25
        (some (lit "https://x")) (lit "m") = lit "(https://x 'm')"
    ∧ lit "(https://x 'm')" ≠ timeoutOutMsg := by
  decide

/-- C4 (amended): for every provider selection other than `amvera` (i.e. the
`deepseek-chat` branch and the `zai`/default branch), the gateway call is
wrapped in `asyncio.wait_for` with `MODEL_WATCHDOG_SECONDS` (default 25);
when the selected call outlives the watchdog the worker's outgoing text is
the fixed slow-service message, and the session parts are reset afterward
regardless. The `amvera` branch has no watchdog (see the counterexample). -/
theorem c4_amended_watchdog (provider : Str) (amv : AmveraRes) (amvS : Nat)
    (ds zai : GwCall) (watchdog : Nat) (link : Option Str) (meta : Str)
    (env : TgEnv) (parts : Parts) (placeholder : Option Nat)
    (hprov : provider ≠ lit "amvera")
    (htime : (if provider = lit "deepseek-chat" then ds else zai).seconds > watchdog) :
    workerOut provider amv amvS ds zai watchdog link meta = timeoutOutMsg
    ∧ (format_worker env provider amv amvS ds zai watchdog parts placeholder).sessionAfter =
        ⟨lit "format_citation", ⟨none, []⟩, none⟩
    ∧ MODEL_WATCHDOG_SECONDS_default = 25 := by
  refine ⟨?_, rfl, rfl⟩
  unfold workerOut
  rw [if_neg hprov]
  dsimp only
  rw [if_pos htime]

/-- Witness for C4 (amended): the `zai` branch with a 26-second call against
the default 25-second watchdog. -/
theorem c4_amended_watchdog_witness :
    ((lit "zai" : Str) ≠ lit "amvera"
      ∧ (if (lit "zai" : Str) = lit "deepseek-chat" then GwCall.returns [] 26
          else GwCall.returns [] 26).seconds > 25)
    ∧ (workerOut (lit "zai") ⟨true, [], none⟩ 0 (GwCall.returns [] 26) (GwCall.returns [] 26)
          25 none [] = timeoutOutMsg
      ∧ (format_worker ⟨true, true⟩ (lit "zai") ⟨true, [], none⟩ 0 (GwCall.returns [] 26)
          (GwCall.returns [] 26) 25 ⟨none, []⟩ none).sessionAfter =
        ⟨lit "format_citation", ⟨none, []⟩, none⟩
      ∧ MODEL_WATCHDOG_SECONDS_default = 25) :=
  ⟨⟨by decide, by decide⟩,
    c4_amended_watchdog (lit "zai") ⟨true, [], none⟩ 0 (GwCall.returns [] 26)
      (GwCall.returns [] 26) 25 none [] ⟨true, true⟩ ⟨none, []⟩ none
      (by decide) (by decide)⟩

/-- C1 evaluated at its failing input: when the placeholder edit succeeds the
final text is visible exactly once, but when the edit fails (deleted or
uneditable placeholder) the final text becomes visible twice — once from the
fallback send inside `tg_edit_message` (telegram_service.py line 124) and
once more from the worker's own fallback send (format_citation.py
line 121).  The session parts are reset to `{link: none, meta: ""}` in both
runs, as claimed. -/
theorem c1_exactly_once_violated :
    countVisible ⟨true, true⟩
        (format_worker ⟨true, true⟩ (lit "zai") ⟨true, [], none⟩ 0
          (GwCall.returns (lit "(https://e.org 'Meta')") 1)
          (GwCall.returns (lit "(https://e.org 'Meta')") 1) 25
          ⟨some (lit "https://e.org"), lit "Meta"⟩ (some 1)).calls
        (lit "(https://e.org 'Meta')") = 1
    ∧ countVisible ⟨false, true⟩
        (format_worker ⟨false, true⟩ (lit "zai") ⟨true, [], none⟩ 0
          (GwCall.returns (lit "(https://e.org 'Meta')") 1)
          (GwCall.returns (lit "(https://e.org 'Meta')") 1) 25
          ⟨some (lit "https://e.org"), lit "Meta"⟩ (some 1)).calls
        (lit "(https://e.org 'Meta')") = 2
    ∧ (format_worker ⟨false, true⟩ (lit "zai") ⟨true, [], none⟩ 0
        (GwCall.returns (lit "(https://e.org 'Meta')") 1)
        (GwCall.returns (lit "(https://e.org 'Meta')") 1) 25
        ⟨some (lit "https://e.org"), lit "Meta"⟩ (some 1)).sessionAfter.parts = ⟨none, []⟩
    ∧ (format_worker ⟨true, true⟩ (lit "zai") ⟨true, [], none⟩ 0
        (GwCall.returns (lit "(https://e.org 'Meta')") 1)
        (GwCall.returns (lit "(https://e.org 'Meta')") 1) 25
        ⟨some (lit "https://e.org"), lit "Meta"⟩ (some 1)).sessionAfter.parts = ⟨none, []⟩ := by
  decide

theorem handle_message_calls_ne_nil (env : TgEnv) (parts : Parts) (text : Str) :
    (handle_message env parts text).2 ≠ [] := by
  unfold handle_message
  dsimp only
  split
  · simp
  · split
    · simp
    · split
      · simp
      · simp

theorem routeMessage_dropped (now cooldown : ℚ) (env : TgEnv) (st : BotState)
    (chat : Int) (rawText : Option Str)
    (h : now - ((List.lookup chat st.ledger).getD 0) < cooldown) :
    routeMessage now cooldown env st chat rawText = (st, []) := by
  unfold routeMessage allow
  dsimp only
  rw [if_pos h]
  rfl

theorem routeMessage_pass (now cooldown : ℚ) (env : TgEnv) (st : BotState)
    (chat : Int) (rawText : Option Str)
    (h : ¬ (now - ((List.lookup chat st.ledger).getD 0) < cooldown)) :
    ∃ ss acts, routeMessage now cooldown env st chat rawText =
      (⟨ss, (chat, now) :: st.ledger⟩, acts) ∧ acts ≠ [] := by
  unfold routeMessage allow enter_mode
  dsimp only
  rw [if_neg h]
  dsimp only
  rw [if_neg (show ¬ ¬ ((true : Bool) = true) from by simp)]
  split
  · exact ⟨_, _, rfl, by simp⟩
  · split
    · exact ⟨_, _, rfl, by simp⟩
    · split
      · exact ⟨_, _, rfl, by simp⟩
      · split
        · exact ⟨_, _, rfl, by simp⟩
        · split
          · exact ⟨_, _, rfl, by simp⟩
          · split
            · exact ⟨_, _, rfl, by simp⟩
            · split
              · exact ⟨_, _, rfl, handle_message_calls_ne_nil env _ _⟩
              · exact ⟨_, _, rfl, by simp⟩

/-- C9: two text messages from the same chat.  The first passes the cooldown
gate (hypothesis) and is processed: the ledger records its arrival time and
at least one outbound call is made.  If the second arrives within the
cooldown window it is silently dropped — the router returns the state
exactly unchanged (no ledger update, no session mutation) and makes no
outbound call.  If it arrives outside the window it is processed as well:
the ledger moves to its time and outbound calls are made. -/
theorem c9_rate_limiter_gate (env : TgEnv) (st : BotState) (chat : Int)
    (txt1 txt2 : Option Str) (t1 t2 cd : ℚ)
    (h1 : ¬ (t1 - ((List.lookup chat st.ledger).getD 0) < cd)) :
    (route_update t1 cd env st ⟨none, some ⟨chat, txt1⟩, none⟩).2 ≠ []
    ∧ List.lookup chat (route_update t1 cd env st ⟨none, some ⟨chat, txt1⟩, none⟩).1.ledger =
        some t1
    ∧ (t2 - t1 < cd →
        route_update t2 cd env (route_update t1 cd env st ⟨none, some ⟨chat, txt1⟩, none⟩).1
            ⟨none, some ⟨chat, txt2⟩, none⟩ =
          ((route_update t1 cd env st ⟨none, some ⟨chat, txt1⟩, none⟩).1, []))
    ∧ (¬ (t2 - t1 < cd) →
        List.lookup chat (route_update t2 cd env
            (route_update t1 cd env st ⟨none, some ⟨chat, txt1⟩, none⟩).1
            ⟨none, some ⟨chat, txt2⟩, none⟩).1.ledger = some t2
        ∧ (route_update t2 cd env (route_update t1 cd env st ⟨none, some ⟨chat, txt1⟩, none⟩).1
            ⟨none, some ⟨chat, txt2⟩, none⟩).2 ≠ []) := by
  have hru : ∀ (now : ℚ) (s : BotState) (txt : Option Str),
      route_update now cd env s ⟨none, some ⟨chat, txt⟩, none⟩ =
        routeMessage now cd env s chat txt := fun _ _ _ => rfl
  obtain ⟨ss, acts, heq, hne⟩ := routeMessage_pass t1 cd env st chat txt1 h1
  have hledger1 : (route_update t1 cd env st ⟨none, some ⟨chat, txt1⟩, none⟩).1.ledger =
      (chat, t1) :: st.ledger := by rw [hru, heq]
  have hlook1 : List.lookup chat
      (route_update t1 cd env st ⟨none, some ⟨chat, txt1⟩, none⟩).1.ledger = some t1 := by
    rw [hledger1]
    simp [List.lookup]
  refine ⟨by rw [hru, heq]; exact hne, hlook1, ?_, ?_⟩
  · intro hlt
    rw [hru]
    apply routeMessage_dropped
    rw [hlook1]
    exact hlt
  · intro hge
    have h2 : ¬ (t2 - ((List.lookup chat
        (route_update t1 cd env st ⟨none, some ⟨chat, txt1⟩, none⟩).1.ledger).getD 0) < cd) := by
      rw [hlook1]
      exact hge
    obtain ⟨ss2, acts2, heq2, hne2⟩ :=
      routeMessage_pass t2 cd env _ chat txt2 h2
    rw [hru, heq2]
    constructor
    · simp [List.lookup]
    · exact hne2

/-- Witness for C9: an empty initial state, first message at t=1, second
tried at both sides of the 0.7-second default cooldown. -/
theorem c9_rate_limiter_gate_witness :
    (¬ ((1 : ℚ) - ((List.lookup (7 : Int) ([] : Ledger)).getD 0) < 7/10))
    ∧ ((route_update 1 (7/10) ⟨true, true⟩ ⟨[], []⟩
          ⟨none, some ⟨7, some (lit "hi")⟩, none⟩).2 ≠ []
      ∧ List.lookup (7 : Int) (route_update 1 (7/10) ⟨true, true⟩ ⟨[], []⟩
          ⟨none, some ⟨7, some (lit "hi")⟩, none⟩).1.ledger = some 1
      ∧ ((3/2 : ℚ) - 1 < 7/10 →
          route_update (3/2) (7/10) ⟨true, true⟩
              (route_update 1 (7/10) ⟨true, true⟩ ⟨[], []⟩
                ⟨none, some ⟨7, some (lit "hi")⟩, none⟩).1
              ⟨none, some ⟨7, some (lit "yo")⟩, none⟩ =
            ((route_update 1 (7/10) ⟨true, true⟩ ⟨[], []⟩
              ⟨none, some ⟨7, some (lit "hi")⟩, none⟩).1, []))
      ∧ (¬ ((3/2 : ℚ) - 1 < 7/10) →
          List.lookup (7 : Int) (route_update (3/2) (7/10) ⟨true, true⟩
              (route_update 1 (7/10) ⟨true, true⟩ ⟨[], []⟩
                ⟨none, some ⟨7, some (lit "hi")⟩, none⟩).1
              ⟨none, some ⟨7, some (lit "yo")⟩, none⟩).1.ledger = some (3/2)
          ∧ (route_update (3/2) (7/10) ⟨true, true⟩
              (route_update 1 (7/10) ⟨true, true⟩ ⟨[], []⟩
                ⟨none, some ⟨7, some (lit "hi")⟩, none⟩).1
              ⟨none, some ⟨7, some (lit "yo")⟩, none⟩).2 ≠ [])) :=
  ⟨by norm_num [List.lookup],
    c9_rate_limiter_gate ⟨true, true⟩ ⟨[], []⟩ 7 (some (lit "hi")) (some (lit "yo"))
      1 (3/2) (7/10) (by norm_num [List.lookup])⟩

/-- C10: a callback/button-interaction update is routed without ever
consulting or updating the rate-limit ledger: the ledger is unchanged, and
the result does not depend on the arrival time, the cooldown, or the
delivery environment — a callback is never dropped by the cooldown. -/
theorem c10_callback_bypasses_rate_limit (now now' cd cd' : ℚ) (env env' : TgEnv)
    (st : BotState) (cb : Cb) (m em : Option Msg) :
    (route_update now cd env st ⟨some cb, m, em⟩).1.ledger = st.ledger
    ∧ route_update now cd env st ⟨some cb, m, em⟩ =
        route_update now' cd' env' st ⟨some cb, m, em⟩ := by
  constructor
  · show (routeCallback st cb).1.ledger = st.ledger
    obtain ⟨omsg, odata⟩ := cb
    cases omsg with
    | none => rfl
    | some p =>
      obtain ⟨chat, mid⟩ := p
      show (routeCallback st ⟨some (chat, mid), odata⟩).1.ledger = st.ledger
      unfold routeCallback enter_mode ensure_session
      dsimp only
      split
      · split
        · split <;> rfl
        · rfl
      · split
        · rfl
        · rfl
  · rfl
